import Mathlib

/-!
# Verification of the imagen_databank identifier registry and validators

Shallow embedding of the parts of `imagen_databank` that the specification
makes claims about:

* `imagen_databank/core.py` — the PSC1/DAWBA/PSC2 registry build, the
  inverse PSC2→PSC1 table and the `detect_psc1` / `detect_psc2` heuristics;
* `cantab/imagen_cantab_age_at_session_start_time.py` — age-in-days;
* `psytools/imagen_psytools_deidentify_csv.py` — record anonymization;
* `imagen_databank/additional_data.py` — filename classification;
* `imagen_databank/cantab.py` — datasheet reading and date plausibility;
* `imagen_databank/sanity/imaging.py` — archive conformance validation.

Python strings are modelled as `List Char`, Python dicts as insertion-ordered
association lists with unique keys, and Python exceptions as an `Except`
error channel.
-/

/-- Python strings, modelled as lists of characters. -/
abbrev Str := List Char

/-- Python `dict`, modelled as an insertion-ordered association list whose
keys are kept unique by `pySet`. -/
abbrev PyDict (α β : Type) := List (α × β)

/-- Python exceptions raised by the embedded code. -/
inductive PyErr where
  | keyError
  | valueError
  | typeError
  | indexError
  | nameError
  | stopIteration
  | attributeError
  | inconsistentMapping
  deriving DecidableEq, Repr

/-- `k in d` for a Python dict. -/
def pyContains [DecidableEq α] (d : PyDict α β) (k : α) : Bool :=
  (d.find? (fun p => p.1 = k)).isSome

/-- `d.get(k)` for a Python dict: `none` when the key is absent. -/
def pyGet? [DecidableEq α] (d : PyDict α β) (k : α) : Option β :=
  (d.find? (fun p => p.1 = k)).map (·.2)

/-- `d[k]` for a Python dict: raises `KeyError` when the key is absent. -/
def pyGetE [DecidableEq α] (d : PyDict α β) (k : α) : Except PyErr β :=
  match pyGet? d k with
  | some v => .ok v
  | none => .error .keyError

/-- `d[k] = v` for a Python dict: an existing key keeps its insertion
position, a new key is appended (Python 3.7+ ordering). -/
def pySet [DecidableEq α] (d : PyDict α β) (k : α) (v : β) : PyDict α β :=
  match d with
  | [] => [(k, v)]
  | (k', v') :: rest =>
      if k' = k then (k', v) :: rest else (k', v') :: pySet rest k v

/-- `s.add(x)` for a Python set, modelled as first-insertion-ordered list. -/
def pySetAdd [DecidableEq α] (l : List α) (x : α) : List α :=
  if x ∈ l then l else l ++ [x]

/-! ## Registry build (`core.py`, `_initialize_psc1_dawba_psc2`) -/

/-- One `PSC1=DAWBA=PSC2` line of a reference table, already split on `=`. -/
structure RefRow where
  psc1 : Str
  dawba : Str
  psc2 : Str
  deriving DecidableEq, Repr

/-- State of the registry build: the `psc2_from_psc1` and `psc1_from_dawba`
dictionaries. -/
abbrev RegState := PyDict Str Str × PyDict Str Str

/-- One iteration of the loop in `_initialize_psc1_dawba_psc2` (core.py,
lines 109–120): skip the literal header line, then check `psc2` against the
keys of `psc2_from_psc1` (note: the source tests `psc2 in psc2_from_psc1`
and then reads `psc2_from_psc1[psc1]`, which raises `KeyError` when `psc1`
is not yet a key); finally always record `psc1_from_dawba[dawba] = psc1`. -/
def psc2pscLine (st : RegState) (row : RefRow) : Except PyErr RegState :=
  if row.psc1 = "PSC1".toList ∧ row.dawba = "DAWBA".toList ∧ row.psc2 = "PSC2".toList then
    .ok st
  else
    if pyContains st.1 row.psc2 then
      match pyGet? st.1 row.psc1 with
      | none => .error .keyError
      | some v =>
          if v ≠ row.psc2 then
            .error .inconsistentMapping
          else
            .ok (st.1, pySet st.2 row.dawba row.psc1)
    else
      .ok (pySet st.1 row.psc1 row.psc2,
           pySet st.2 row.dawba row.psc1)

/-- `_initialize_psc1_dawba_psc2` (core.py, lines 91–121): fold the rows of
every source file, in listed order, through `psc2pscLine`; return the
`psc2_from_psc1` and `psc1_from_dawba` dictionaries, or fail with the first
raised exception. -/
def initPsc1DawbaPsc2 (sources : List (List RefRow)) : Except PyErr RegState :=
  sources.foldlM (fun st rows => rows.foldlM psc2pscLine st) ([], [])

/-- `PSC1_FROM_PSC2 = {v: k for k, v in PSC2_FROM_PSC1.items()}`
(core.py, line 162): dictionary inversion of the forward table. -/
def psc1FromPsc2 (psc2FromPsc1 : PyDict Str Str) : PyDict Str Str :=
  psc2FromPsc1.foldl (fun acc kv => pySet acc kv.2 kv.1) []

/-- The PSC1 of the last non-header row carrying DAWBA code `d`, if any
(specification of what `psc1_from_dawba` ends up holding). -/
def lastDawbaPsc1 (rows : List RefRow) (d : Str) : Option Str :=
  ((rows.filter (fun r =>
      ¬(r.psc1 = "PSC1".toList ∧ r.dawba = "DAWBA".toList ∧ r.psc2 = "PSC2".toList)
      ∧ r.dawba = d)).getLast?).map (·.psc1)

/-! ## PSC1/PSC2 detection (`core.py`, `detect_psc1` / `detect_psc2`) -/

/-- An ASCII decimal digit (`0`-`9`). Used to model `\d` in the
additional-data filename patterns and `str.isdigit` in the sanity checks,
whose inputs of interest are ASCII. -/
def pyDigit (c : Char) : Bool :=
  48 ≤ c.toNat && c.toNat ≤ 57

/-- The ranges of Unicode code points of category `Nd` (decimal digits),
as enumerated by CPython's `unicodedata`: for a `str` pattern compiled
without `re.ASCII`, the class `\d` matches exactly these characters. -/
def ndRanges : List (Nat × Nat) :=
  [(0x30, 0x39), (0x660, 0x669), (0x6F0, 0x6F9), (0x7C0, 0x7C9), (0x966,
   0x96F), (0x9E6, 0x9EF), (0xA66, 0xA6F), (0xAE6, 0xAEF), (0xB66, 0xB6F),
   (0xBE6, 0xBEF), (0xC66, 0xC6F), (0xCE6, 0xCEF), (0xD66, 0xD6F), (0xDE6,
   0xDEF), (0xE50, 0xE59), (0xED0, 0xED9), (0xF20, 0xF29), (0x1040, 0x1049),
   (0x1090, 0x1099), (0x17E0, 0x17E9), (0x1810, 0x1819), (0x1946, 0x194F),
   (0x19D0, 0x19D9), (0x1A80, 0x1A89), (0x1A90, 0x1A99), (0x1B50, 0x1B59),
   (0x1BB0, 0x1BB9), (0x1C40, 0x1C49), (0x1C50, 0x1C59), (0xA620, 0xA629),
   (0xA8D0, 0xA8D9), (0xA900, 0xA909), (0xA9D0, 0xA9D9), (0xA9F0, 0xA9F9),
   (0xAA50, 0xAA59), (0xABF0, 0xABF9), (0xFF10, 0xFF19), (0x104A0, 0x104A9),
   (0x10D30, 0x10D39), (0x11066, 0x1106F), (0x110F0, 0x110F9), (0x11136,
   0x1113F), (0x111D0, 0x111D9), (0x112F0, 0x112F9), (0x11450, 0x11459),
   (0x114D0, 0x114D9), (0x11650, 0x11659), (0x116C0, 0x116C9), (0x11730,
   0x11739), (0x118E0, 0x118E9), (0x11950, 0x11959), (0x11C50, 0x11C59),
   (0x11D50, 0x11D59), (0x11DA0, 0x11DA9), (0x16A60, 0x16A69), (0x16AC0,
   0x16AC9), (0x16B50, 0x16B59), (0x1D7CE, 0x1D7FF), (0x1E140, 0x1E149),
   (0x1E2F0, 0x1E2F9), (0x1E950, 0x1E959), (0x1FBF0, 0x1FBF9)]

/-- A single character of the Python regex class `\d` in the PSC detection
patterns (`str` patterns, no `re.ASCII`): any Unicode decimal digit. -/
def unicodeDigit (c : Char) : Bool :=
  ndRanges.any (fun r => r.1 ≤ c.toNat && c.toNat ≤ r.2)

/-- Numerical IDs of the acquisition centers, in the insertion order of
`CENTER_NAME` (core.py, lines 51–76). -/
def centerIds : List Nat := [1, 2, 3, 4, 5, 6, 7, 8, 90, 91]

/-- The contents of the character class of `_PSC1_REGEX`
(core.py, lines 173–175): `''.join([str(c) for c in CENTER_NAME])`. -/
def psc1SiteDigits : Str :=
  (centerIds.map (fun c => (Nat.repr c).toList)).flatten

/-- Membership in the `_PSC1_REGEX` site-digit character class. -/
def psc1SiteClass (c : Char) : Bool :=
  (psc1SiteDigits.map Char.toNat).contains c.toNat

/-- Whether the regex `0<cls>\d{10}` matches at the head of `s`. -/
def psc12At (cls : Char → Bool) : Str → Bool
  | c0 :: c1 :: rest =>
      c0 = '0' && cls c1 && (rest.take 10).length = 10 && (rest.take 10).all unicodeDigit
  | _ => false

/-- `re.search` for the pattern `(0<cls>\d{10})[^d]?`: scan left to right,
return the 12-digit group of the leftmost match (the optional `[^d]?` can
always match the empty string and never constrains the match). -/
def search12 (cls : Char → Bool) : Str → Option Str
  | [] => none
  | c :: rest =>
      if psc12At cls (c :: rest) then some ((c :: rest).take 12)
      else search12 cls rest

/-- `detect_psc1` (core.py, lines 178–199). -/
def detect_psc1 (s : Str) : Option Str := search12 psc1SiteClass s

/-- `detect_psc2` (core.py, lines 210–230): same scan with class `\d`. -/
def detect_psc2 (s : Str) : Option Str := search12 unicodeDigit s

/-! ## Association-list (Python dict) lemmas -/

lemma contains_iff_mem {α : Type} [BEq α] [LawfulBEq α] (l : List α) (a : α) :
    l.contains a = true ↔ a ∈ l := by
  unfold List.contains
  exact List.elem_iff

lemma pyGet?_cons_pos {α β : Type} [DecidableEq α] (q : α × β) (tl : PyDict α β) (k : α)
    (h : q.1 = k) : pyGet? (q :: tl) k = some q.2 := by
  unfold pyGet?
  rw [List.find?_cons_of_pos _ (by simp [h])]
  rfl

lemma pyGet?_cons_neg {α β : Type} [DecidableEq α] (q : α × β) (tl : PyDict α β) (k : α)
    (h : q.1 ≠ k) : pyGet? (q :: tl) k = pyGet? tl k := by
  unfold pyGet?
  rw [List.find?_cons_of_neg _ (by simp [h])]

lemma pySet_cons {α β : Type} [DecidableEq α] (q : α × β) (tl : PyDict α β) (k : α) (v : β) :
    pySet (q :: tl) k v = if q.1 = k then (q.1, v) :: tl else q :: pySet tl k v := by
  rcases q with ⟨k0, v0⟩
  rfl

lemma pyGet?_pySet_self {α β : Type} [DecidableEq α] (d : PyDict α β) (k : α) (v : β) :
    pyGet? (pySet d k v) k = some v := by
  induction d with
  | nil => exact pyGet?_cons_pos (k, v) [] k rfl
  | cons hd tl ih =>
      rw [pySet_cons]
      by_cases h : hd.1 = k
      · rw [if_pos h]
        exact pyGet?_cons_pos (hd.1, v) tl k h
      · rw [if_neg h, pyGet?_cons_neg hd _ k h]
        exact ih

lemma pyGet?_pySet_ne {α β : Type} [DecidableEq α] (d : PyDict α β) (k k' : α) (v : β)
    (h : k' ≠ k) : pyGet? (pySet d k v) k' = pyGet? d k' := by
  induction d with
  | nil => exact pyGet?_cons_neg (k, v) [] k' (fun hk => h hk.symm)
  | cons hd tl ih =>
      rw [pySet_cons]
      by_cases hh : hd.1 = k
      · rw [if_pos hh]
        by_cases hh' : hd.1 = k'
        · exact absurd (hh'.symm.trans hh) h
        · rw [pyGet?_cons_neg (hd.1, v) tl k' hh', pyGet?_cons_neg hd tl k' hh']
      · rw [if_neg hh]
        by_cases hh' : hd.1 = k'
        · rw [pyGet?_cons_pos hd _ k' hh', pyGet?_cons_pos hd _ k' hh']
        · rw [pyGet?_cons_neg hd _ k' hh', pyGet?_cons_neg hd _ k' hh']
          exact ih

lemma pyGet?_mem {α β : Type} [DecidableEq α] (d : PyDict α β) (k : α) (v : β)
    (h : pyGet? d k = some v) : (k, v) ∈ d := by
  unfold pyGet? at h
  cases hf : d.find? (fun p => p.1 = k) with
  | none => rw [hf] at h; cases h
  | some q =>
      rw [hf] at h
      have hq : q ∈ d := List.mem_of_find?_eq_some hf
      have hpred := List.find?_some hf
      have h1 : q.1 = k := by simpa using hpred
      have h2 : q.2 = v := by simpa using h
      have hqe : q = (k, v) := Prod.ext h1 h2
      rwa [hqe] at hq

/-! ## Theorems about the registry build -/

/-- Case analysis on a successful `psc2pscLine` step: either the row is the
literal header and the state is unchanged, or the row is a data row and the
`psc1_from_dawba` component is updated with `dawba ↦ psc1`. -/
lemma psc2pscLine_ok_snd (st st1 : RegState) (r : RefRow)
    (h : psc2pscLine st r = .ok st1) :
    ((r.psc1 = "PSC1".toList ∧ r.dawba = "DAWBA".toList ∧ r.psc2 = "PSC2".toList) ∧ st1 = st)
    ∨ (¬(r.psc1 = "PSC1".toList ∧ r.dawba = "DAWBA".toList ∧ r.psc2 = "PSC2".toList)
       ∧ st1.2 = pySet st.2 r.dawba r.psc1) := by
  unfold psc2pscLine at h
  by_cases hhdr : r.psc1 = "PSC1".toList ∧ r.dawba = "DAWBA".toList ∧ r.psc2 = "PSC2".toList
  · rw [if_pos hhdr] at h
    cases h
    exact Or.inl ⟨hhdr, rfl⟩
  · rw [if_neg hhdr] at h
    refine Or.inr ⟨hhdr, ?_⟩
    split at h
    · split at h
      · cases h
      · split at h
        · cases h
        · cases h
          rfl
    · cases h
      rfl

lemma getLast?_cons_eq {α : Type} (a : α) (l : List α) :
    (a :: l).getLast? = match l.getLast? with | some x => some x | none => some a := by
  induction l generalizing a with
  | nil => rfl
  | cons b l ih =>
      rw [List.getLast?_cons_cons]
      cases hbl : (b :: l).getLast? with
      | none => exact absurd (List.getLast?_eq_none_iff.mp hbl) (List.cons_ne_nil b l)
      | some x => rfl

/-- The `psc1_from_dawba` component of a successful fold of `psc2pscLine`
holds, for each DAWBA code, the PSC1 of the last non-header row that carried
it, and is otherwise unchanged from the initial state. -/
lemma dawba_fold_last (rows : List RefRow) (st st' : RegState)
    (h : rows.foldlM psc2pscLine st = .ok st') (d : Str) :
    pyGet? st'.2 d =
      match lastDawbaPsc1 rows d with
      | some p => some p
      | none => pyGet? st.2 d := by
  induction rows generalizing st with
  | nil =>
      cases h
      simp [lastDawbaPsc1]
  | cons r rows ih =>
      rw [List.foldlM_cons] at h
      cases hstep : psc2pscLine st r with
      | error e =>
          rw [hstep] at h
          cases h
      | ok st1 =>
          rw [hstep] at h
          have hrest : rows.foldlM psc2pscLine st1 = .ok st' := h
          rcases psc2pscLine_ok_snd st st1 r hstep with ⟨hhdr, hst⟩ | ⟨hhdr, hsnd⟩
          · subst hst
            have hlast : lastDawbaPsc1 (r :: rows) d = lastDawbaPsc1 rows d := by
              unfold lastDawbaPsc1
              rw [List.filter_cons_of_neg
                (by simp only [decide_eq_true_eq]; exact fun hx => hx.1 hhdr)]
            rw [hlast]
            exact ih _ hrest
          · by_cases hd : r.dawba = d
            · have hlast : lastDawbaPsc1 (r :: rows) d =
                  match lastDawbaPsc1 rows d with
                  | some p => some p
                  | none => some r.psc1 := by
                unfold lastDawbaPsc1
                rw [List.filter_cons_of_pos
                  (by simp only [decide_eq_true_eq]; exact ⟨hhdr, hd⟩)]
                rw [getLast?_cons_eq]
                cases (rows.filter (fun rr : RefRow =>
                    ¬(rr.psc1 = "PSC1".toList ∧ rr.dawba = "DAWBA".toList
                      ∧ rr.psc2 = "PSC2".toList) ∧ rr.dawba = d)).getLast? with
                | none => rfl
                | some q => rfl
              rw [hlast, ih _ hrest]
              cases lastDawbaPsc1 rows d with
              | some p => rfl
              | none =>
                  show pyGet? st1.2 d = some r.psc1
                  rw [hsnd, hd, pyGet?_pySet_self]
            · have hlast : lastDawbaPsc1 (r :: rows) d = lastDawbaPsc1 rows d := by
                unfold lastDawbaPsc1
                rw [List.filter_cons_of_neg
                  (by simp only [decide_eq_true_eq]; exact fun hx => hd hx.2)]
              rw [hlast, ih _ hrest]
              cases lastDawbaPsc1 rows d with
              | some p => rfl
              | none =>
                  show pyGet? st1.2 d = pyGet? st.2 d
                  rw [hsnd, pyGet?_pySet_ne _ _ _ _ (fun hh => hd hh.symm)]

/-- Folding file by file equals folding the concatenation of all rows. -/
lemma foldlM_sources (sources : List (List RefRow)) (st : RegState) :
    sources.foldlM (fun s rows => rows.foldlM psc2pscLine s) st =
      sources.flatten.foldlM psc2pscLine st := by
  induction sources generalizing st with
  | nil => rfl
  | cons hd tl ih =>
      show (hd.foldlM psc2pscLine st >>= fun b =>
          tl.foldlM (fun s rows => rows.foldlM psc2pscLine s) b) = _
      rw [List.flatten_cons, List.foldlM_append]
      cases hfold : hd.foldlM psc2pscLine st with
      | ok b => simp [ih]
      | error e => rfl

/-- Helper for the inversion proof: once the accumulated inverse dict maps
`p` to `c`, or the pair `(c, p)` is still to come and every remaining entry
with value `p` has key `c`, the folded inverse maps `p` to `c`. -/
lemma invert_fold_lookup (rest : List (Str × Str)) (acc : PyDict Str Str) (c p : Str)
    (huniq : ∀ q ∈ rest, q.2 = p → q.1 = c)
    (hst : pyGet? acc p = some c ∨ (c, p) ∈ rest) :
    pyGet? (rest.foldl (fun a kv => pySet a kv.2 kv.1) acc) p = some c := by
  induction rest generalizing acc with
  | nil =>
      rcases hst with h | h
      · simpa using h
      · cases h
  | cons q rest ih =>
      rw [List.foldl_cons]
      have huniq' : ∀ r ∈ rest, r.2 = p → r.1 = c :=
        fun r hr hrp => huniq r (List.mem_cons_of_mem q hr) hrp
      by_cases hq : q.2 = p
      · have hq1 : q.1 = c := huniq q (List.mem_cons_self q rest) hq
        refine ih _ huniq' (Or.inl ?_)
        rw [hq, hq1, pyGet?_pySet_self]
      · refine ih _ huniq' ?_
        rcases hst with h | h
        · exact Or.inl (by rwa [pyGet?_pySet_ne _ _ _ _ (fun hh => hq hh.symm)])
        · rcases List.mem_cons.mp h with h | h
          · exact absurd (congrArg Prod.snd h).symm hq
          · exact Or.inr h

lemma siteDigitCodes_contains (n : Nat) :
    (([49, 50, 51, 52, 53, 54, 55, 56, 57, 48, 57, 49] : List Nat).contains n) =
      (decide (48 ≤ n) && decide (n ≤ 57)) := by
  by_cases hn : 48 ≤ n ∧ n ≤ 57
  · have hm : n ∈ ([49, 50, 51, 52, 53, 54, 55, 56, 57, 48, 57, 49] : List Nat) := by
      obtain ⟨h1, h2⟩ := hn
      interval_cases n <;> decide
    rw [(contains_iff_mem _ n).mpr hm]
    obtain ⟨h1, h2⟩ := hn
    simp [h1, h2]
  · have hm : n ∉ ([49, 50, 51, 52, 53, 54, 55, 56, 57, 48, 57, 49] : List Nat) := by
      intro hmem
      simp at hmem
      omega
    have hc : (([49, 50, 51, 52, 53, 54, 55, 56, 57, 48, 57, 49] : List Nat).contains n) = false := by
      rw [Bool.eq_false_iff]
      intro hcc
      exact hm ((contains_iff_mem _ n).mp hcc)
    rw [hc]
    symm
    rw [Bool.eq_false_iff]
    intro hb
    simp at hb
    omega

/-- The site-digit character class of `_PSC1_REGEX` expands to all ten
decimal digits: the one- and two-digit center numbers 1–8, 90, 91 contribute
the characters 1–8, 9, 0, 9, 1. -/
lemma psc1SiteClass_eq_pyDigit (c : Char) : psc1SiteClass c = pyDigit c := by
  unfold psc1SiteClass pyDigit
  rw [show psc1SiteDigits.map Char.toNat =
      [49, 50, 51, 52, 53, 54, 55, 56, 57, 48, 57, 49] from rfl]
  exact siteDigitCodes_contains c.toNat

/-! ## Claim theorems: registry and detection -/

/-- C1: evaluating the registry build at two reference rows that carry the
same PSC1 `000000000001` but different PSC2 values `000000000002` and
`000000000003` returns a registry (the later PSC2 silently wins) instead of
raising the `inconsistent PSC1/PSC2 mapping` exception: the guard tests
`psc2 in psc2_from_psc1`, i.e. the PSC2 value against the PSC1-keyed dict. -/
theorem duplicate_psc1_build_returns_ok :
    initPsc1DawbaPsc2 [[⟨"000000000001".toList, "111111".toList, "000000000002".toList⟩,
                        ⟨"000000000001".toList, "222222".toList, "000000000003".toList⟩]]
      = .ok ([("000000000001".toList, "000000000003".toList)],
             [("111111".toList, "000000000001".toList),
              ("222222".toList, "000000000001".toList)]) := by
  rfl

/-- C2 counterexample: a registry built without error from two rows that map
distinct PSC1 codes `000000000001` and `000000000004` to the same PSC2
`000000000002` breaks the round trip: the forward table sends
`000000000001` to `000000000002`, yet the inverted table sends
`000000000002` back to `000000000004`. -/
theorem psc2_roundtrip_cex :
    initPsc1DawbaPsc2 [[⟨"000000000001".toList, "111111".toList, "000000000002".toList⟩,
                        ⟨"000000000004".toList, "222222".toList, "000000000002".toList⟩]]
      = .ok ([("000000000001".toList, "000000000002".toList),
              ("000000000004".toList, "000000000002".toList)],
             [("111111".toList, "000000000001".toList),
              ("222222".toList, "000000000004".toList)])
    ∧ pyGet? [("000000000001".toList, "000000000002".toList),
              ("000000000004".toList, "000000000002".toList)] "000000000001".toList
        = some "000000000002".toList
    ∧ pyGet? (psc1FromPsc2 [("000000000001".toList, "000000000002".toList),
              ("000000000004".toList, "000000000002".toList)]) "000000000002".toList
        = some "000000000004".toList
    ∧ "000000000004".toList ≠ "000000000001".toList := by
  refine ⟨by rfl, by decide, by decide, by decide⟩

/-- C2 (amended): for every `internalCode` whose `publicCode` is shared with
no other entry of the forward table, looking up the `publicCode` in the
dict-inversion table returns the original `internalCode`. -/
theorem psc2_roundtrip_of_unique (m : PyDict Str Str) (c p : Str)
    (hlook : pyGet? m c = some p)
    (huniq : ∀ q ∈ m, q.2 = p → q.1 = c) :
    pyGet? (psc1FromPsc2 m) p = some c := by
  unfold psc1FromPsc2
  exact invert_fold_lookup m [] c p huniq (Or.inr (pyGet?_mem m c p hlook))

theorem psc2_roundtrip_of_unique_witness :
    pyGet? (psc1FromPsc2 [("000000000001".toList, "000000000002".toList)])
      "000000000002".toList = some "000000000001".toList :=
  psc2_roundtrip_of_unique [("000000000001".toList, "000000000002".toList)]
    "000000000001".toList "000000000002".toList (by decide) (by decide)

/-- C3 counterexample: two rows carrying the same DAWBA code `123456` with
different PSC1 partners build without any error, and the resulting
`psc1_from_dawba` holds the PSC1 of the *later* row: the first loaded value
does not win and no conflict is detected. -/
theorem dawba_conflict_cex :
    (initPsc1DawbaPsc2 [[⟨"000000000001".toList, "123456".toList, "000000000002".toList⟩,
                         ⟨"000000000004".toList, "123456".toList, "000000000005".toList⟩]]).map
        (fun st => pyGet? st.2 "123456".toList)
      = .ok (some "000000000004".toList)
    ∧ "000000000004".toList ≠ "000000000001".toList := by
  refine ⟨by rfl, by decide⟩

/-- C3 (amended): in any successfully built registry, each DAWBA code maps
to the PSC1 of the **last** loaded non-header row that carried it — a later
conflicting row silently overwrites the earlier mapping. -/
theorem dawba_last_loaded_wins (sources : List (List RefRow)) (st' : RegState)
    (h : initPsc1DawbaPsc2 sources = .ok st') (d : Str) :
    pyGet? st'.2 d = lastDawbaPsc1 sources.flatten d := by
  unfold initPsc1DawbaPsc2 at h
  rw [foldlM_sources] at h
  rw [dawba_fold_last sources.flatten ([], []) st' h d]
  cases lastDawbaPsc1 sources.flatten d with
  | some p => rfl
  | none => rfl

theorem dawba_last_loaded_wins_witness :
    pyGet? (([("000000000001".toList, "000000000002".toList),
              ("000000000004".toList, "000000000005".toList)],
             [("123456".toList, "000000000004".toList)]) : RegState).2 "123456".toList
      = lastDawbaPsc1
          (List.flatten [[⟨"000000000001".toList, "123456".toList, "000000000002".toList⟩,
                          ⟨"000000000004".toList, "123456".toList, "000000000005".toList⟩]])
          "123456".toList :=
  dawba_last_loaded_wins
    [[⟨"000000000001".toList, "123456".toList, "000000000002".toList⟩,
      ⟨"000000000004".toList, "123456".toList, "000000000005".toList⟩]]
    _ (by rfl) "123456".toList

/-- Below code point 128 the class `\d` is exactly the ASCII digits:
every `Nd` range other than `0x30`–`0x39` lies above 127. -/
lemma unicodeDigit_ascii (c : Char) (h : c.toNat ≤ 127) :
    unicodeDigit c = pyDigit c := by
  unfold unicodeDigit pyDigit
  generalize c.toNat = n at h ⊢
  interval_cases n <;> decide

/-- C10 counterexample: the `_PSC1_REGEX` character class holds only ASCII
characters while the `\d` of `_PSC2_REGEX` matches any Unicode decimal
digit, so on `'0'` + ARABIC-INDIC DIGIT THREE (U+0663) + ten ASCII digits
`detect_psc2` finds a code and `detect_psc1` finds none: the two detectors
are not extensionally equal. -/
theorem detect_psc_unicode_cex :
    detect_psc1 ('0' :: Char.ofNat 0x663 :: "0123456789".toList) = none
    ∧ detect_psc2 ('0' :: Char.ofNat 0x663 :: "0123456789".toList)
        = some ('0' :: Char.ofNat 0x663 :: "0123456789".toList) :=
  ⟨rfl, rfl⟩

/-- C10 (amended): the site-digit character class built from the center
numbers (1–8, 90, 91) expands to all ten ASCII decimal digits, so on
strings of ASCII characters `detect_psc1` and `detect_psc2` return the
same result and the per-site second-digit restriction imposes no
constraint; on inputs with non-ASCII Unicode digits the detectors can
differ, because `\d` also matches those while the class does not. -/
theorem detect_psc1_eq_detect_psc2_ascii :
    (∀ c : Char, psc1SiteClass c = pyDigit c)
    ∧ ∀ s : Str, (∀ c ∈ s, c.toNat ≤ 127) → detect_psc1 s = detect_psc2 s := by
  refine ⟨psc1SiteClass_eq_pyDigit, ?_⟩
  intro s
  unfold detect_psc1 detect_psc2
  induction s with
  | nil => intro _; rfl
  | cons c rest ih =>
      intro h
      have hAt : psc12At psc1SiteClass (c :: rest) = psc12At unicodeDigit (c :: rest) := by
        match rest with
        | [] => rfl
        | c1 :: rest' =>
            simp only [psc12At]
            have hc1 : c1.toNat ≤ 127 :=
              h c1 (List.mem_cons_of_mem c (List.mem_cons_self c1 rest'))
            rw [psc1SiteClass_eq_pyDigit c1, ← unicodeDigit_ascii c1 hc1]
      unfold search12
      rw [hAt]
      by_cases hM : psc12At unicodeDigit (c :: rest) = true
      · rw [if_pos hM, if_pos hM]
      · rw [if_neg hM, if_neg hM]
        exact ih (fun x hx => h x (List.mem_cons_of_mem c hx))

/-- C10 witness: a concrete ASCII filename on which the amended agreement
applies, with the ASCII hypothesis discharged by evaluation. -/
theorem detect_psc1_eq_detect_psc2_ascii_witness :
    (∀ c ∈ "x012345678901y".toList, c.toNat ≤ 127)
    ∧ detect_psc1 "x012345678901y".toList = detect_psc2 "x012345678901y".toList :=
  ⟨by decide, detect_psc1_eq_detect_psc2_ascii.2 "x012345678901y".toList (by decide)⟩

/-! ## Dates (`datetime.date` / `datetime.datetime`) -/

/-- `datetime.date`. -/
structure PyDate where
  year : Nat
  month : Nat
  day : Nat
  deriving DecidableEq, Repr

/-- `datetime.datetime` (microseconds unused by the embedded code paths). -/
structure PyDateTime where
  year : Nat
  month : Nat
  day : Nat
  hour : Nat
  minute : Nat
  second : Nat
  deriving DecidableEq, Repr

/-- `datetime.date()` on a datetime. -/
def PyDateTime.date (t : PyDateTime) : PyDate := ⟨t.year, t.month, t.day⟩

def isLeapYear (y : Nat) : Bool :=
  y % 4 = 0 && (y % 100 ≠ 0 || y % 400 = 0)

def daysInMonth (y m : Nat) : Nat :=
  if m = 1 then 31 else if m = 2 then (if isLeapYear y then 29 else 28)
  else if m = 3 then 31 else if m = 4 then 30 else if m = 5 then 31
  else if m = 6 then 30 else if m = 7 then 31 else if m = 8 then 31
  else if m = 9 then 30 else if m = 10 then 31 else if m = 11 then 30
  else if m = 12 then 31 else 0

def daysBeforeMonth (y m : Nat) : Nat :=
  (List.range (m - 1)).foldl (fun acc i => acc + daysInMonth y (i + 1)) 0

/-- `datetime.date.toordinal`: proleptic Gregorian day count, with
0001-01-01 as day 1. -/
def toOrdinal (d : PyDate) : Nat :=
  365 * (d.year - 1) + (d.year - 1) / 4 - (d.year - 1) / 100 + (d.year - 1) / 400
    + daysBeforeMonth d.year d.month + d.day

/-- `(a - b).days` for two `datetime.date` values. -/
def dateDiffDays (a b : PyDate) : Int := (toOrdinal a : Int) - (toOrdinal b : Int)

def validDate (d : PyDate) : Prop :=
  1 ≤ d.year ∧ 1 ≤ d.month ∧ d.month ≤ 12 ∧ 1 ≤ d.day ∧ d.day ≤ daysInMonth d.year d.month

instance (d : PyDate) : Decidable (validDate d) := by
  unfold validDate
  infer_instance

/-- The calendar successor of a date. -/
def nextDay (d : PyDate) : PyDate :=
  if d.day < daysInMonth d.year d.month then ⟨d.year, d.month, d.day + 1⟩
  else if d.month < 12 then ⟨d.year, d.month + 1, 1⟩
  else ⟨d.year + 1, 1, 1⟩

/-- Chronological (lexicographic) `<` on dates, as Python compares them. -/
def dateLtB (a b : PyDate) : Bool :=
  a.year < b.year
  || (a.year = b.year
      && (a.month < b.month || (a.month = b.month && a.day < b.day)))

/-- Chronological (lexicographic) `<` on datetimes. -/
def dateTimeLtB (a b : PyDateTime) : Bool :=
  a.year < b.year
  || (a.year = b.year
      && (a.month < b.month
          || (a.month = b.month
              && (a.day < b.day
                  || (a.day = b.day
                      && (a.hour < b.hour
                          || (a.hour = b.hour
                              && (a.minute < b.minute
                                  || (a.minute = b.minute
                                      && a.second < b.second)))))))))

lemma daysBeforeMonth_succ (y m : Nat) (h : 1 ≤ m) :
    daysBeforeMonth y (m + 1) = daysBeforeMonth y m + daysInMonth y m := by
  unfold daysBeforeMonth
  rw [show m + 1 - 1 = (m - 1) + 1 by omega]
  rw [List.range_succ, List.foldl_append]
  simp only [List.foldl_cons, List.foldl_nil]
  rw [show m - 1 + 1 = m by omega]

lemma daysBeforeMonth_twelve (y : Nat) :
    daysBeforeMonth y 12 = 334 + (if isLeapYear y then 1 else 0) := by
  by_cases h : isLeapYear y
  · simp [daysBeforeMonth, List.range_succ, daysInMonth, h]
  · simp [daysBeforeMonth, List.range_succ, daysInMonth, h]

/-- `toOrdinal` counts days: moving to the next calendar day increments the
ordinal by exactly one. -/
lemma isLeapYear_iff (y : Nat) :
    isLeapYear y = true ↔ (y % 4 = 0 ∧ (y % 100 ≠ 0 ∨ y % 400 = 0)) := by
  simp [isLeapYear]

lemma toOrdinal_year_rollover (y : Nat) (hy : 1 ≤ y) :
    365 * (y + 1 - 1) + (y + 1 - 1) / 4 - (y + 1 - 1) / 100 + (y + 1 - 1) / 400 + 0 + 1
      = 365 * (y - 1) + (y - 1) / 4 - (y - 1) / 100 + (y - 1) / 400
        + (334 + (if isLeapYear y then 1 else 0)) + 31 + 1 := by
  have h4 : (y % 4 = 0 → y / 4 = (y - 1) / 4 + 1) ∧ (¬(y % 4 = 0) → y / 4 = (y - 1) / 4) := by
    constructor <;> intro h <;> omega
  have h100 : (y % 100 = 0 → y / 100 = (y - 1) / 100 + 1)
      ∧ (¬(y % 100 = 0) → y / 100 = (y - 1) / 100) := by
    constructor <;> intro h <;> omega
  have h400 : (y % 400 = 0 → y / 400 = (y - 1) / 400 + 1)
      ∧ (¬(y % 400 = 0) → y / 400 = (y - 1) / 400) := by
    constructor <;> intro h <;> omega
  rw [Nat.add_sub_cancel]
  by_cases hleap : isLeapYear y = true
  · rw [if_pos hleap]
    obtain ⟨l4, lor⟩ := (isLeapYear_iff y).mp hleap
    rcases lor with l100 | l400
    · rw [h4.1 l4, h100.2 l100]
      by_cases l400 : y % 400 = 0
      · omega
      · rw [h400.2 l400]
        omega
    · have l100 : y % 100 = 0 := by omega
      rw [h4.1 l4, h100.1 l100, h400.1 l400]
      omega
  · rw [if_neg hleap]
    have hl : ¬(y % 4 = 0 ∧ (y % 100 ≠ 0 ∨ y % 400 = 0)) :=
      fun hc => hleap ((isLeapYear_iff y).mpr hc)
    by_cases l4 : y % 4 = 0
    · by_cases l100 : y % 100 = 0
      · by_cases l400 : y % 400 = 0
        · exact absurd (And.intro l4 (Or.inr l400)) hl
        · rw [h4.1 l4, h100.1 l100, h400.2 l400]
          omega
      · exact absurd (And.intro l4 (Or.inl l100)) hl
    · by_cases l100 : y % 100 = 0
      · by_cases l400 : y % 400 = 0
        · omega
        · rw [h4.2 l4, h100.1 l100, h400.2 l400]
          omega
      · rw [h4.2 l4, h100.2 l100]
        by_cases l400 : y % 400 = 0
        · omega
        · rw [h400.2 l400]
          omega

lemma toOrdinal_nextDay (d : PyDate) (h : validDate d) :
    toOrdinal (nextDay d) = toOrdinal d + 1 := by
  obtain ⟨y, m, dd⟩ := d
  obtain ⟨hy, hm1, hm12, hd1, hdm⟩ := h
  simp only at hy hm1 hm12 hd1 hdm
  unfold nextDay
  by_cases hday : dd < daysInMonth y m
  · rw [if_pos hday]
    unfold toOrdinal
    dsimp only
    omega
  · rw [if_neg hday]
    have hde : dd = daysInMonth y m := by omega
    by_cases hmon : m < 12
    · rw [if_pos hmon]
      unfold toOrdinal
      dsimp only
      rw [daysBeforeMonth_succ y m hm1]
      omega
    · rw [if_neg hmon]
      have hm12' : m = 12 := by omega
      subst hm12'
      have hd31 : dd = 31 := by
        rw [hde]
        simp [daysInMonth]
      subst hd31
      clear hde hdm hday hd1
      unfold toOrdinal
      dsimp only
      have hdb1 : daysBeforeMonth (y + 1) 1 = 0 := rfl
      rw [hdb1, daysBeforeMonth_twelve y]
      exact toOrdinal_year_rollover y hy

/-! ## `datetime.strptime` for the date formats in the sources -/

/-- Value of a digit string. -/
def natOfDigits (ds : Str) : Nat :=
  ds.foldl (fun acc c => acc * 10 + (c.toNat - 48)) 0

/-- Parse one to `maxd` leading digits (greedy), as the `%d`/`%m`/`%Y`/`%H`/
`%M`/`%S` directives do in the formats at hand (each is followed by a
non-digit separator, so greediness matches CPython's value-aware regex). -/
def spanDigits (maxd : Nat) (s : Str) : Option (Nat × Str) :=
  let ds := (s.take maxd).takeWhile pyDigit
  if ds.isEmpty then none
  else some (natOfDigits ds, s.drop ds.length)

/-- Parse an exact literal character. -/
def pLit (c : Char) : Str → Option Str
  | c' :: rest => if c' = c then some rest else none
  | [] => none

/-- A whitespace run in a strptime format matches one or more spaces. -/
def pSpace (s : Str) : Option Str :=
  match s with
  | ' ' :: rest => some (rest.dropWhile (· = ' '))
  | _ => none

/-- The English abbreviated month names (`%b`), the code-driven month-name
table: CPython matches them case-insensitively. -/
def monthAbbrevs : List Str :=
  ["jan".toList, "feb".toList, "mar".toList, "apr".toList, "may".toList,
   "jun".toList, "jul".toList, "aug".toList, "sep".toList, "oct".toList,
   "nov".toList, "dec".toList]

/-- Parse `%b`: three letters, case-insensitive, into a month number. -/
def pMonthAbbrev (s : Str) : Option (Nat × Str) :=
  let low := (s.take 3).map Char.toLower
  (monthAbbrevs.findIdx? (fun m => m = low)).map (fun i => (i + 1, s.drop 3))

/-- `datetime.date(y, m, d)` with its constructor range checks. -/
def mkDate (y m d : Nat) : Option PyDate :=
  if 1 ≤ y ∧ y ≤ 9999 ∧ 1 ≤ m ∧ m ≤ 12 ∧ 1 ≤ d ∧ d ≤ daysInMonth y m then
    some ⟨y, m, d⟩
  else none

/-- `datetime.datetime(y, mo, d, h, mi, s)` with range checks. -/
def mkDateTime (y mo d h mi s : Nat) : Option PyDateTime :=
  if 1 ≤ y ∧ y ≤ 9999 ∧ 1 ≤ mo ∧ mo ≤ 12 ∧ 1 ≤ d ∧ d ≤ daysInMonth y mo
      ∧ h ≤ 23 ∧ mi ≤ 59 ∧ s ≤ 59 then
    some ⟨y, mo, d, h, mi, s⟩
  else none

/-- strptime with format `%d-%b-%Y %H:%M:%S` (e.g. `01-Feb-2015 12:34:56`). -/
def fmtDayDashMonthName (s : Str) : Option PyDateTime := do
  let (d, s) ← spanDigits 2 s
  let s ← pLit '-' s
  let (m, s) ← pMonthAbbrev s
  let s ← pLit '-' s
  let (y, s) ← spanDigits 4 s
  let s ← pSpace s
  let (h, s) ← spanDigits 2 s
  let s ← pLit ':' s
  let (mi, s) ← spanDigits 2 s
  let s ← pLit ':' s
  let (sec, s) ← spanDigits 2 s
  if s.isEmpty then mkDateTime y m d h mi sec else none

/-- strptime with format `%d/%m/%Y %H:%M` (e.g. `01/02/2015 12:34`). -/
def fmtDaySlashMonth (s : Str) : Option PyDateTime := do
  let (d, s) ← spanDigits 2 s
  let s ← pLit '/' s
  let (m, s) ← spanDigits 2 s
  let s ← pLit '/' s
  let (y, s) ← spanDigits 4 s
  let s ← pSpace s
  let (h, s) ← spanDigits 2 s
  let s ← pLit ':' s
  let (mi, s) ← spanDigits 2 s
  if s.isEmpty then mkDateTime y m d h mi 0 else none

/-- strptime with format `%d.%m.%Y %H:%M:%S` (e.g. `01.02.2015 12:34:56`). -/
def fmtDayDotMonth (s : Str) : Option PyDateTime := do
  let (d, s) ← spanDigits 2 s
  let s ← pLit '.' s
  let (m, s) ← spanDigits 2 s
  let s ← pLit '.' s
  let (y, s) ← spanDigits 4 s
  let s ← pSpace s
  let (h, s) ← spanDigits 2 s
  let s ← pLit ':' s
  let (mi, s) ← spanDigits 2 s
  let s ← pLit ':' s
  let (sec, s) ← spanDigits 2 s
  if s.isEmpty then mkDateTime y m d h mi sec else none

/-- strptime with format `%d %b %Y %H:%M:%S` (e.g. `01 Feb 2015 12:34:56`). -/
def fmtDaySpaceMonthName (s : Str) : Option PyDateTime := do
  let (d, s) ← spanDigits 2 s
  let s ← pSpace s
  let (m, s) ← pMonthAbbrev s
  let s ← pSpace s
  let (y, s) ← spanDigits 4 s
  let s ← pSpace s
  let (h, s) ← spanDigits 2 s
  let s ← pLit ':' s
  let (mi, s) ← spanDigits 2 s
  let s ← pLit ':' s
  let (sec, s) ← spanDigits 2 s
  if s.isEmpty then mkDateTime y m d h mi sec else none

/-- strptime with format `%H:%M:%S %d.%m.%Y` (e.g. `12:34:56 01.02.2015`). -/
def fmtTimeFirst (s : Str) : Option PyDateTime := do
  let (h, s) ← spanDigits 2 s
  let s ← pLit ':' s
  let (mi, s) ← spanDigits 2 s
  let s ← pLit ':' s
  let (sec, s) ← spanDigits 2 s
  let s ← pSpace s
  let (d, s) ← spanDigits 2 s
  let s ← pLit '.' s
  let (m, s) ← spanDigits 2 s
  let s ← pLit '.' s
  let (y, s) ← spanDigits 4 s
  if s.isEmpty then mkDateTime y m d h mi sec else none

/-- `_parse_csv_datetime` (cantab.py, lines 60–86): try the five formats in
their fixed order and return on the first successful parse. -/
def parse_csv_datetime (s : Str) : Option PyDateTime :=
  match fmtDayDashMonthName s with
  | some t => some t
  | none =>
      match fmtDaySlashMonth s with
      | some t => some t
      | none =>
          match fmtDayDotMonth s with
          | some t => some t
          | none =>
              match fmtDaySpaceMonthName s with
              | some t => some t
              | none => fmtTimeFirst s

/-! ## `read_datasheet` (`cantab.py`, lines 89–140) -/

/-- `row[i]` for a Python list: raises `IndexError` when out of range. -/
def pyIndex {α : Type} (l : List α) (i : Nat) : Except PyErr α :=
  match l.get? i with
  | some v => .ok v
  | none => .error .indexError

/-- The `logger.warning` of cantab.py line 134, emitted for a parsed
"Session start time" before 2007: carries the current row's subject id
(always bound at that point, since the row must be non-empty for the cell
access to succeed) and the offending parsed time. -/
structure DatasheetWarn where
  subjectId : Option Str
  time : PyDateTime
  deriving DecidableEq, Repr

/-- The tuple returned by `read_datasheet` (plus the warning channel);
`columns_max` is computed by the source but not returned. -/
structure DatasheetResult where
  subjectIds : List Str
  sessionStartTimes : List PyDateTime
  rows : Nat
  columnsMin : Nat
  fields : PyDict Str Nat
  warnings : List DatasheetWarn
  deriving DecidableEq, Repr

/-- `fields = {v: i for i, v in enumerate(header)}` (cantab.py line 117). -/
def headerFields (header : List Str) : PyDict Str Nat :=
  header.enum.foldl (fun acc iv => pySet acc iv.2 iv.1) []

/-- One iteration of the row loop of `read_datasheet` (cantab.py lines
123–139): collect the subject id of a non-empty row, then parse the
"Session start time" cell when that column exists — a parsed time earlier
than 2007-01-01 is logged as a warning but still added to the result set. -/
def datasheetRow (st : DatasheetResult) (row : List Str) :
    Except PyErr DatasheetResult := do
  let (subjectIds, sid?) ←
    if row.length > 0 then do
      let sid ←
        match pyGet? st.fields "Subject ID".toList with
        | some i => pyIndex row i
        | none => pyIndex row 0
      pure (pySetAdd st.subjectIds sid, some sid)
    else
      pure (st.subjectIds, (none : Option Str))
  let (sessionStartTimes, warnings) ←
    match pyGet? st.fields "Session start time".toList with
    | some i => do
        let cell ← pyIndex row i
        match parse_csv_datetime cell with
        | some t =>
            let warnings :=
              if dateTimeLtB t ⟨2007, 1, 1, 0, 0, 0⟩ then st.warnings ++ [⟨sid?, t⟩]
              else st.warnings
            pure (pySetAdd st.sessionStartTimes t, warnings)
        | none => pure (st.sessionStartTimes, st.warnings)
    | none => pure (st.sessionStartTimes, st.warnings)
  pure { subjectIds := subjectIds
         sessionStartTimes := sessionStartTimes
         rows := st.rows + 1
         columnsMin := min row.length st.columnsMin
         fields := st.fields
         warnings := warnings }

/-- `read_datasheet` (cantab.py lines 89–140), over the list of rows that
`csv.reader` yields after the externally-supplied dialect sniffing: consume
the header (raising `StopIteration` on an empty table, as `next(reader)`
does), build the `fields` dict, then fold the remaining rows. -/
def read_datasheet (table : List (List Str)) : Except PyErr DatasheetResult := do
  match table with
  | [] => throw .stopIteration
  | header :: body =>
      let st0 : DatasheetResult :=
        if header.length > 0 then
          { subjectIds := []
            sessionStartTimes := []
            rows := 1
            columnsMin := header.length
            fields := headerFields header
            warnings := [] }
        else
          { subjectIds := []
            sessionStartTimes := []
            rows := 0
            columnsMin := 0
            fields := []
            warnings := [] }
      body.foldlM datasheetRow st0

/-! ## The per-datasheet body of `imagen_cantab_age_at_session_start_time.py`
(lines 47–76) -/

/-- The log messages the script can emit for one datasheet. -/
inductive CantabLog where
  | properSubjectIdNotFound
  | unknownAge (psc1 : Str)
  | properSessionStartTimeNotFound
  | bogusSessionStartTime (d : PyDate)
  | unknownPsc1 (psc1 : Str)
  deriving DecidableEq, Repr

/-- One iteration of the script's datasheet loop: returns the `(psc2, age)`
pair it would print, or `none` when the record is skipped via `continue`,
together with the log messages. -/
def cantabAgeRecord (psc2FromPsc1 : PyDict Str Str) (dobFromPsc1 : PyDict Str PyDate)
    (table : List (List Str)) : Except PyErr (Option (Str × Int) × List CantabLog) := do
  let r ← read_datasheet table
  if r.subjectIds.length ≠ 1 then
    return (none, [.properSubjectIdNotFound])
  else
    let psc1 := (r.subjectIds.headD []).take 12
    match pyGet? dobFromPsc1 psc1 with
    | none => return (none, [.unknownAge psc1])
    | some dob =>
        let dates := r.sessionStartTimes.foldl (fun acc t => pySetAdd acc t.date) []
        if dates.length ≠ 1 then
          return (none, [.properSessionStartTimeNotFound])
        else
          let d := dates.headD ⟨0, 0, 0⟩
          if dateLtB d ⟨2007, 1, 1⟩ then
            return (none, [.bogusSessionStartTime d])
          else
            let age := dateDiffDays d dob
            match pyGet? psc2FromPsc1 psc1 with
            | none => return (none, [.unknownPsc1 psc1])
            | some psc2 => return (some (psc2, age), [])

/-! ## `_create_psc2_file` row processing
(`psytools/imagen_psytools_deidentify_csv.py`, lines 61–177) -/

/-- `pat in s` for Python strings: contiguous substring test. -/
def pyInB (pat : Str) : Str → Bool
  | [] => pat.isEmpty
  | c :: rest => pat.isPrefixOf (c :: rest) || pyInB pat rest

/-- `s.rsplit('-', 1)`: split at the last dash; `(s, none)` when there is
no dash, otherwise `(before, some after)`. -/
def pyRsplitDash1 (s : Str) : Str × Option Str :=
  let r := s.reverse
  let t := r.takeWhile (· ≠ '-')
  let rest := r.dropWhile (· ≠ '-')
  match rest with
  | [] => (s, none)
  | _ :: before => (before.reverse, some t.reverse)

/-- `str(i)` for a Python int. -/
def strOfInt (i : Int) : Str := (toString i).toList

/-- The keys of `ANONYMIZED_COLUMNS` (both use `%Y-%m-%d %H:%M:%S.%f`). -/
def ANONYMIZED_COLUMNS : List Str :=
  ["Completed Timestamp".toList, "Processed Timestamp".toList]

/-- `convert = [f for f in reader.fieldnames if f in ANONYMIZED_COLUMNS]`. -/
def psytoolsConvertFields (fieldnames : List Str) : List Str :=
  fieldnames.filter (fun f => f ∈ ANONYMIZED_COLUMNS)

/-- strptime with format `%Y-%m-%d %H:%M:%S.%f`, followed by `.date()`. -/
def fmtIsoMicroDate (s : Str) : Option PyDate := do
  let (y, s) ← spanDigits 4 s
  let s ← pLit '-' s
  let (m, s) ← spanDigits 2 s
  let s ← pLit '-' s
  let (d, s) ← spanDigits 2 s
  let s ← pSpace s
  let (h, s) ← spanDigits 2 s
  let s ← pLit ':' s
  let (mi, s) ← spanDigits 2 s
  let s ← pLit ':' s
  let (sec, s) ← spanDigits 2 s
  let s ← pLit '.' s
  let (_, s) ← spanDigits 6 s
  if s.isEmpty then (mkDateTime y m d h mi sec).map PyDateTime.date else none

/-- strptime with format `%d-%m-%Y`, followed by `.date()`. -/
def fmtDayDashMonthNum (s : Str) : Option PyDate := do
  let (d, s) ← spanDigits 2 s
  let s ← pLit '-' s
  let (m, s) ← spanDigits 2 s
  let s ← pLit '-' s
  let (y, s) ← spanDigits 4 s
  if s.isEmpty then mkDate y m d else none

/-- One step of the `for fieldname in convert` loop (lines 139–147): note
the source tests `psc1 in DOB_FROM_PSC2` (a PSC1 code against the
PSC2-keyed table) and then reads `DOB_FROM_PSC2[psc2]`; the state carries
the row and the `timestamp` local (whose value leaks across rows and into
the `ni_period`/`ni_date` branch). -/
def psytoolsConvertStep (dobFromPsc2 : PyDict Str PyDate) (psc1 psc2 : Str)
    (st : PyDict Str (Option Str) × Option PyDate) (fieldname : Str) :
    Except PyErr (PyDict Str (Option Str) × Option PyDate) := do
  if pyContains dobFromPsc2 psc1 then do
    let birth ← pyGetE dobFromPsc2 psc2
    let cell? ← pyGetE st.1 fieldname
    match cell? with
    | none => throw .typeError
    | some cell =>
        match fmtIsoMicroDate cell with
        | none => throw .valueError
        | some timestamp =>
            let age := dateDiffDays timestamp birth
            pure (pySet st.1 fieldname (some (strOfInt age)), some timestamp)
  else
    pure (pySet st.1 fieldname none, st.2)

/-- The body of the row loop of `_create_psc2_file` (lines 88–177): returns
`none` when the row is dropped (`continue`), `some row'` when a row is
written, along with the value of the `timestamp` local carried to the next
iteration. -/
def psytoolsRow (psc2FromPsc1 : PyDict Str Str) (dobFromPsc2 : PyDict Str PyDate)
    (convert : List Str) (tsIn : Option PyDate) (row : PyDict Str (Option Str)) :
    Except PyErr (Option (PyDict Str (Option Str)) × Option PyDate) := do
  let trial? ← pyGetE row "Trial".toList
  match trial? with
  | none => throw .typeError
  | some trial =>
      if pyInB "id_check_".toList trial then
        return (none, tsIn)
      else
        let uc? ← pyGetE row "User code".toList
        match uc? with
        | none => throw .attributeError
        | some uc =>
            let psc1 := (pyRsplitDash1 uc).1
            match pyGet? psc2FromPsc1 psc1 with
            | none =>
                -- unresolved: test-subject heuristic logs and drops, other
                -- codes are logged as errors and dropped — no output either way
                return (none, tsIn)
            | some psc2 =>
                let psc2Suffix :=
                  match (pyRsplitDash1 uc).2 with
                  | some suf => psc2 ++ '-' :: suf
                  | none => psc2
                let row := pySet row "User code".toList (some psc2Suffix)
                let st ← convert.foldlM (psytoolsConvertStep dobFromPsc2 psc1 psc2) (row, tsIn)
                let row := st.1
                let timestamp? := st.2
                if trial = "education_end".toList then
                  if psc2 ≠ [] ∧ pyContains dobFromPsc2 psc2 then do
                    let cell? ← pyGetE row "Trial result".toList
                    match cell? with
                    | none => throw .typeError
                    | some cell =>
                        match fmtDayDashMonthNum cell with
                        | none =>
                            return (some (pySet row "Trial result".toList none), timestamp?)
                        | some event => do
                            let birth ← pyGetE dobFromPsc2 psc2
                            let age := dateDiffDays event birth
                            return (some (pySet row "Trial result".toList
                              (some (strOfInt age))), timestamp?)
                  else
                    return (some (pySet row "Trial result".toList none), timestamp?)
                else
                  if trial = "ni_period".toList ∨ trial = "ni_date".toList then do
                    let cell? ← pyGetE row "Trial result".toList
                    match cell? with
                    | none => throw .typeError
                    | some cell =>
                        match fmtDayDashMonthNum cell with
                        | none =>
                            return (some (pySet row "Trial result".toList none), timestamp?)
                        | some event =>
                            match timestamp? with
                            | none => throw .nameError
                            | some ts =>
                                let interval := dateDiffDays ts event
                                return (some (pySet row "Trial result".toList
                                  (some (strOfInt interval))), timestamp?)
                  else
                    return (some row, timestamp?)

lemma takeWhile_append_stop {α : Type} (p : α → Bool) (l1 l2 : List α) (x : α)
    (h1 : ∀ c ∈ l1, p c = true) (hx : p x = false) :
    (l1 ++ x :: l2).takeWhile p = l1 ∧ (l1 ++ x :: l2).dropWhile p = x :: l2 := by
  induction l1 with
  | nil =>
      constructor
      · simp [List.takeWhile_cons, hx]
      · simp [List.dropWhile_cons, hx]
  | cons a l ih =>
      have ha : p a = true := h1 a (List.mem_cons_self a l)
      have ih' := ih (fun c hc => h1 c (List.mem_cons_of_mem a hc))
      constructor
      · rw [List.cons_append, List.takeWhile_cons, ha]
        simp [ih'.1]
      · rw [List.cons_append, List.dropWhile_cons, ha]
        simp [ih'.2]

lemma pyRsplitDash1_append (base suf : Str)
    (hs : ∀ c ∈ suf, c ≠ '-') :
    pyRsplitDash1 (base ++ '-' :: suf) = (base, some suf) := by
  simp only [pyRsplitDash1]
  rw [show (base ++ '-' :: suf).reverse = suf.reverse ++ '-' :: base.reverse by simp]
  obtain ⟨ht, hd⟩ := takeWhile_append_stop (fun c => c ≠ '-') suf.reverse base.reverse '-'
    (fun c hc => by simp [hs c (List.mem_reverse.mp hc)]) (by simp)
  rw [ht, hd]
  simp

lemma psytools_convert_nodob (dob : PyDict Str PyDate) (psc1 psc2 : Str)
    (h : pyContains dob psc1 = false) (convert : List Str)
    (st : PyDict Str (Option Str) × Option PyDate) :
    convert.foldlM (psytoolsConvertStep dob psc1 psc2) st
      = .ok (convert.foldl (fun acc f => pySet acc f none) st.1, st.2) := by
  induction convert generalizing st with
  | nil =>
      cases st
      rfl
  | cons f rest ih =>
      rw [List.foldlM_cons, List.foldl_cons]
      have hstep : psytoolsConvertStep dob psc1 psc2 st f = .ok (pySet st.1 f none, st.2) := by
        unfold psytoolsConvertStep
        rw [if_neg (by simp [h])]
        rfl
      rw [hstep]
      exact ih (pySet st.1 f none, st.2)

lemma pyGet?_foldl_pySet_ne (fields : List Str) (row : PyDict Str (Option Str)) (k : Str)
    (hk : ∀ f ∈ fields, f ≠ k) :
    pyGet? (fields.foldl (fun acc f => pySet acc f none) row) k = pyGet? row k := by
  induction fields generalizing row with
  | nil => rfl
  | cons f rest ih =>
      rw [List.foldl_cons]
      rw [ih _ (fun g hg => hk g (List.mem_cons_of_mem f hg))]
      exact pyGet?_pySet_ne row f k none (fun hh => hk f (List.mem_cons_self f rest) hh.symm)

lemma pyGet?_foldl_pySet_mem (fields : List Str) (row : PyDict Str (Option Str)) (f : Str)
    (hf : f ∈ fields) :
    pyGet? (fields.foldl (fun acc g => pySet acc g none) row) f = some none := by
  induction fields generalizing row with
  | nil => cases hf
  | cons g rest ih =>
      rw [List.foldl_cons]
      by_cases hr : f ∈ rest
      · exact ih _ hr
      · have hfg : f = g := by
          rcases List.mem_cons.mp hf with h | h
          · exact h
          · exact absurd h hr
        subst hfg
        rw [pyGet?_foldl_pySet_ne rest _ f (fun x hx => fun he => hr (he ▸ hx))]
        exact pyGet?_pySet_self row f none

lemma except_ok_bind {ε α β : Type} (a : α) (f : α → Except ε β) :
    (Except.ok a >>= f : Except ε β) = f a := rfl

/-- Evaluation of `psytoolsRow` on a row whose subject id resolves, whose
trial is an ordinary one, and whose subject has no date-of-birth entry
(per the `psc1 in DOB_FROM_PSC2` test): the row is kept, its "User code" is
rewritten to the public code plus suffix, and every `convert` column is
blanked to `None`. -/
lemma psytoolsRow_resolved_nodob
    (psc2FromPsc1 : PyDict Str Str) (dobFromPsc2 : PyDict Str PyDate)
    (fieldnames : List Str) (row : PyDict Str (Option Str)) (tsIn : Option PyDate)
    (base suffix psc2 trial : Str)
    (hTrial : pyGet? row "Trial".toList = some (some trial))
    (hNoIdCheck : pyInB "id_check_".toList trial = false)
    (hNotEdu : trial ≠ "education_end".toList)
    (hNotNiP : trial ≠ "ni_period".toList)
    (hNotNiD : trial ≠ "ni_date".toList)
    (hUC : pyGet? row "User code".toList = some (some (base ++ '-' :: suffix)))
    (hSufDash : ∀ c ∈ suffix, c ≠ '-')
    (hResolve : pyGet? psc2FromPsc1 base = some psc2)
    (hNoDob : pyContains dobFromPsc2 base = false) :
    psytoolsRow psc2FromPsc1 dobFromPsc2 (psytoolsConvertFields fieldnames) tsIn row
      = .ok (some ((psytoolsConvertFields fieldnames).foldl (fun acc f => pySet acc f none)
          (pySet row "User code".toList (some (psc2 ++ '-' :: suffix)))), tsIn) := by
  have hsplit : pyRsplitDash1 (base ++ '-' :: suffix) = (base, some suffix) :=
    pyRsplitDash1_append base suffix hSufDash
  have h1 : pyGetE row "Trial".toList = .ok (some trial) := by
    unfold pyGetE
    rw [hTrial]
  have h2 : pyGetE row "User code".toList = .ok (some (base ++ '-' :: suffix)) := by
    unfold pyGetE
    rw [hUC]
  unfold psytoolsRow
  rw [h1, except_ok_bind]
  simp only [hNoIdCheck, Bool.false_eq_true, if_false]
  rw [h2, except_ok_bind]
  simp only [hsplit, hResolve]
  rw [psytools_convert_nodob dobFromPsc2 base psc2 hNoDob _ _, except_ok_bind]
  simp only [if_neg hNotEdu, if_neg (not_or.mpr (And.intro hNotNiP hNotNiD))]
  rfl

/-- The `convert` list never contains "Trial" or "User code": its members
come from `ANONYMIZED_COLUMNS`. -/
lemma psytoolsConvertFields_ne_user_code (fieldnames : List Str) :
    ∀ f ∈ psytoolsConvertFields fieldnames, f ≠ "User code".toList := by
  intro f hf
  unfold psytoolsConvertFields at hf
  have hmem := (List.mem_filter.mp hf).2
  simp only [decide_eq_true_eq, ANONYMIZED_COLUMNS] at hmem
  rcases List.mem_cons.mp hmem with h | h
  · subst h
    decide
  · rcases List.mem_cons.mp h with h2 | h2
    · subst h2
      decide
    · cases h2

/-! ## Claim theorems: age-in-days and the record anonymizer -/

/-- C4 counterexample: for DOB `1997-03-01` and a session started
`2015-03-02`, the script's age-in-days output is `6575`, not the `6576`
the specification's example asserts. -/
theorem age_in_days_example_cex :
    cantabAgeRecord [("000000000001".toList, "000000000099".toList)]
        [("000000000001".toList, ⟨1997, 3, 1⟩)]
        [["Subject ID".toList, "Session start time".toList],
         ["000000000001".toList, "02.03.2015 10:00:00".toList]]
      = .ok (some ("000000000099".toList, 6575), [])
    ∧ (6575 : Int) ≠ 6576 := by
  constructor
  · rfl
  · decide

/-- C4 (amended): the age-in-days transform is the exact integer day
difference — the underlying ordinal increments by exactly one per calendar
day — and for DOB `1997-03-01` and event `2015-03-02` the script outputs
`6575` days (the specification's `6576` is off by one); when the subject
has no date-of-birth entry, the anonymizer writes the designated timestamp
field as `None` (empty) instead of an age. -/
theorem age_in_days_amended :
    (∀ d : PyDate, validDate d → dateDiffDays (nextDay d) d = 1)
    ∧ cantabAgeRecord [("000000000001".toList, "000000000099".toList)]
        [("000000000001".toList, ⟨1997, 3, 1⟩)]
        [["Subject ID".toList, "Session start time".toList],
         ["000000000001".toList, "02.03.2015 10:00:00".toList]]
        = .ok (some ("000000000099".toList, 6575), [])
    ∧ (∀ (psc2FromPsc1 : PyDict Str Str) (dobFromPsc2 : PyDict Str PyDate)
          (fieldnames : List Str) (row : PyDict Str (Option Str)) (tsIn : Option PyDate)
          (base suffix psc2 trial fieldname : Str),
        pyGet? row "Trial".toList = some (some trial) →
        pyInB "id_check_".toList trial = false →
        trial ≠ "education_end".toList →
        trial ≠ "ni_period".toList →
        trial ≠ "ni_date".toList →
        pyGet? row "User code".toList = some (some (base ++ '-' :: suffix)) →
        (∀ c ∈ suffix, c ≠ '-') →
        pyGet? psc2FromPsc1 base = some psc2 →
        pyContains dobFromPsc2 base = false →
        fieldname ∈ psytoolsConvertFields fieldnames →
        ∃ row', psytoolsRow psc2FromPsc1 dobFromPsc2 (psytoolsConvertFields fieldnames) tsIn row
            = .ok (some row', tsIn)
          ∧ pyGet? row' fieldname = some none) := by
  refine ⟨fun d hd => ?_, by rfl, ?_⟩
  · unfold dateDiffDays
    rw [toOrdinal_nextDay d hd]
    push_cast
    ring
  · intro psc2FromPsc1 dobFromPsc2 fieldnames row tsIn base suffix psc2 trial fieldname
      hTrial hNoIdCheck hNotEdu hNotNiP hNotNiD hUC hSufDash hResolve hNoDob hField
    refine ⟨_, psytoolsRow_resolved_nodob psc2FromPsc1 dobFromPsc2 fieldnames row tsIn
      base suffix psc2 trial hTrial hNoIdCheck hNotEdu hNotNiP hNotNiD hUC hSufDash
      hResolve hNoDob, ?_⟩
    exact pyGet?_foldl_pySet_mem _ _ _ hField

theorem age_in_days_amended_witness :
    dateDiffDays (nextDay ⟨1997, 3, 1⟩) ⟨1997, 3, 1⟩ = 1
    ∧ (∃ row', psytoolsRow [("012345678901".toList, "098765432100".toList)] []
          (psytoolsConvertFields ["Completed Timestamp".toList])
          none
          [("Trial".toList, some "t".toList),
           ("User code".toList, some "012345678901-C".toList),
           ("Completed Timestamp".toList, some "2015-01-01 00:00:00.0".toList)]
        = .ok (some row', none)
      ∧ pyGet? row' "Completed Timestamp".toList = some none) :=
  ⟨age_in_days_amended.1 ⟨1997, 3, 1⟩ (by decide),
   age_in_days_amended.2.2 [("012345678901".toList, "098765432100".toList)] []
     ["Completed Timestamp".toList]
     [("Trial".toList, some "t".toList),
      ("User code".toList, some "012345678901-C".toList),
      ("Completed Timestamp".toList, some "2015-01-01 00:00:00.0".toList)]
     none "012345678901".toList ['C'] "098765432100".toList "t".toList
     "Completed Timestamp".toList
     (by decide) (by decide) (by decide) (by decide) (by decide) (by decide)
     (by decide) (by decide) (by decide) (by decide)⟩

/-- C5: a subject identifier consisting of a 12-digit internal code and a
role suffix from `{-C, -P, -I}` is split at the last dash into base and
suffix, the base is resolved through the registry, and the field is
rewritten as the public code followed by the original suffix (psytools
deidentify, lines 112–136). The residency of the DOB check outside this
claim is neutralized by assuming the subject has no DOB entry. -/
theorem psytools_user_code_rewrite
    (psc2FromPsc1 : PyDict Str Str) (dobFromPsc2 : PyDict Str PyDate)
    (fieldnames : List Str) (row : PyDict Str (Option Str)) (tsIn : Option PyDate)
    (base suffix psc2 trial : Str)
    (hTrial : pyGet? row "Trial".toList = some (some trial))
    (hNoIdCheck : pyInB "id_check_".toList trial = false)
    (hNotEdu : trial ≠ "education_end".toList)
    (hNotNiP : trial ≠ "ni_period".toList)
    (hNotNiD : trial ≠ "ni_date".toList)
    (hUC : pyGet? row "User code".toList = some (some (base ++ '-' :: suffix)))
    (_hBaseLen : base.length = 12)
    (_hBaseDigits : base.all pyDigit = true)
    (hSuffix : suffix = ['C'] ∨ suffix = ['P'] ∨ suffix = ['I'])
    (hResolve : pyGet? psc2FromPsc1 base = some psc2)
    (hNoDob : pyContains dobFromPsc2 base = false) :
    ∃ row', psytoolsRow psc2FromPsc1 dobFromPsc2 (psytoolsConvertFields fieldnames) tsIn row
        = .ok (some row', tsIn)
      ∧ pyGet? row' "User code".toList = some (some (psc2 ++ '-' :: suffix)) := by
  have hSufDash : ∀ c ∈ suffix, c ≠ '-' := by
    rcases hSuffix with h | h | h <;> subst h <;> intro c hc <;> simp at hc <;> subst hc <;> decide
  refine ⟨_, psytoolsRow_resolved_nodob psc2FromPsc1 dobFromPsc2 fieldnames row tsIn
    base suffix psc2 trial hTrial hNoIdCheck hNotEdu hNotNiP hNotNiD hUC hSufDash
    hResolve hNoDob, ?_⟩
  rw [pyGet?_foldl_pySet_ne _ _ _ (psytoolsConvertFields_ne_user_code fieldnames)]
  exact pyGet?_pySet_self row _ _

theorem psytools_user_code_rewrite_witness :
    ∃ row', psytoolsRow [("012345678901".toList, "098765432100".toList)] []
        (psytoolsConvertFields []) none
        [("Trial".toList, some "t".toList),
         ("User code".toList, some "012345678901-C".toList)]
      = .ok (some row', none)
      ∧ pyGet? row' "User code".toList = some (some ("098765432100".toList ++ '-' :: ['C'])) :=
  psytools_user_code_rewrite [("012345678901".toList, "098765432100".toList)] [] []
    [("Trial".toList, some "t".toList),
     ("User code".toList, some "012345678901-C".toList)]
    none "012345678901".toList ['C'] "098765432100".toList "t".toList
    (by decide) (by decide) (by decide) (by decide) (by decide) (by decide)
    (by decide) (by decide) (Or.inl rfl) (by decide) (by decide)

/-! ## Claim theorems: date plausibility (`read_datasheet` and its caller) -/

lemma dateTimeLtB_floor_date (t : PyDateTime)
    (h : dateTimeLtB t ⟨2007, 1, 1, 0, 0, 0⟩ = true) :
    dateLtB t.date ⟨2007, 1, 1⟩ = true := by
  simp only [dateTimeLtB, PyDateTime.date, dateLtB] at *
  simp only [Bool.or_eq_true, Bool.and_eq_true, decide_eq_true_eq] at *
  omega

/-- Evaluation of `read_datasheet` on a two-column datasheet with a single
data row whose "Session start time" cell parses to a pre-2007 datetime:
the parsed time is warned about *and* added to the returned set. -/
lemma read_datasheet_one_row (sid cell : Str) (dt : PyDateTime)
    (hparse : parse_csv_datetime cell = some dt)
    (hlt : dateTimeLtB dt ⟨2007, 1, 1, 0, 0, 0⟩ = true) :
    read_datasheet [["Subject ID".toList, "Session start time".toList], [sid, cell]]
       = .ok { subjectIds := [sid]
               sessionStartTimes := [dt]
               rows := 2
               columnsMin := 2
               fields := [("Subject ID".toList, 0), ("Session start time".toList, 1)]
               warnings := [⟨some sid, dt⟩] } := by
  unfold read_datasheet
  simp only [List.length_cons, List.length_nil]
  rw [if_pos (by omega)]
  rw [List.foldlM_cons]
  have hrow : datasheetRow
      { subjectIds := []
        sessionStartTimes := []
        rows := 1
        columnsMin := 2
        fields := headerFields ["Subject ID".toList, "Session start time".toList]
        warnings := [] } [sid, cell]
      = .ok { subjectIds := [sid]
              sessionStartTimes := [dt]
              rows := 2
              columnsMin := 2
              fields := [("Subject ID".toList, 0), ("Session start time".toList, 1)]
              warnings := [⟨some sid, dt⟩] } := by
    unfold datasheetRow
    simp only [List.length_cons, List.length_nil]
    rw [if_pos (by omega)]
    simp only [show pyGet? (headerFields ["Subject ID".toList, "Session start time".toList])
        "Subject ID".toList = some 0 from rfl,
      show pyGet? (headerFields ["Subject ID".toList, "Session start time".toList])
        "Session start time".toList = some 1 from rfl]
    simp only [show pyIndex [sid, cell] 0 = .ok sid from rfl,
      show pyIndex [sid, cell] 1 = .ok cell from rfl, except_ok_bind]
    rw [hparse]
    simp only [hlt, if_true]
    rfl
  rw [hrow, except_ok_bind]
  rfl

/-- C7 counterexample: the date string `01.06.2005 10:00:00` parses to a
datetime before the 2007-01-01 floor, yet `read_datasheet` *does* put it in
the returned `session_start_times` set — the warning (cantab.py line 134)
is emitted but line 136 adds the value unconditionally, so the claim that
the value "yields no result" is false. -/
theorem implausible_date_still_in_results_cex :
    read_datasheet [["Subject ID".toList, "Session start time".toList],
                    ["000000000001".toList, "01.06.2005 10:00:00".toList]]
      = .ok { subjectIds := ["000000000001".toList]
              sessionStartTimes := [⟨2005, 6, 1, 10, 0, 0⟩]
              rows := 2
              columnsMin := 2
              fields := [("Subject ID".toList, 0), ("Session start time".toList, 1)]
              warnings := [⟨some "000000000001".toList, ⟨2005, 6, 1, 10, 0, 0⟩⟩] }
    ∧ dateTimeLtB ⟨2005, 6, 1, 10, 0, 0⟩ ⟨2007, 1, 1, 0, 0, 0⟩ = true := by
  exact ⟨rfl, rfl⟩

/-- C7 (amended): a date string parsing below the plausibility floor makes
the datasheet reader emit exactly one warning diagnostic while still adding
the parsed value to its result set; the calling script then re-checks the
floor itself, logs the value as bogus, and skips the record, so no output
row is produced for it. -/
theorem implausible_date_warned_but_kept (sid cell : Str) (dt : PyDateTime)
    (hparse : parse_csv_datetime cell = some dt)
    (hlt : dateTimeLtB dt ⟨2007, 1, 1, 0, 0, 0⟩ = true) :
    read_datasheet [["Subject ID".toList, "Session start time".toList], [sid, cell]]
       = .ok { subjectIds := [sid]
               sessionStartTimes := [dt]
               rows := 2
               columnsMin := 2
               fields := [("Subject ID".toList, 0), ("Session start time".toList, 1)]
               warnings := [⟨some sid, dt⟩] }
    ∧ (∀ (psc2Map : PyDict Str Str) (dobMap : PyDict Str PyDate) (dob : PyDate),
        pyGet? dobMap (sid.take 12) = some dob →
        cantabAgeRecord psc2Map dobMap
            [["Subject ID".toList, "Session start time".toList], [sid, cell]]
          = .ok (none, [.bogusSessionStartTime dt.date])) := by
  constructor
  · exact read_datasheet_one_row sid cell dt hparse hlt
  · intro psc2Map dobMap dob hdob
    unfold cantabAgeRecord
    rw [read_datasheet_one_row sid cell dt hparse hlt, except_ok_bind]
    rw [if_neg (by simp)]
    simp only [List.headD_cons]
    rw [hdob]
    simp only [List.foldl_cons, List.foldl_nil]
    rw [show pySetAdd ([] : List PyDate) dt.date = [dt.date] from rfl]
    rw [if_neg (by simp)]
    simp only [List.headD_cons]
    rw [dateTimeLtB_floor_date dt hlt]
    rfl

theorem implausible_date_warned_but_kept_witness :
    read_datasheet [["Subject ID".toList, "Session start time".toList],
                    ["000000000002".toList, "01.06.2005 10:00:00".toList]]
       = .ok { subjectIds := ["000000000002".toList]
               sessionStartTimes := [⟨2005, 6, 1, 10, 0, 0⟩]
               rows := 2
               columnsMin := 2
               fields := [("Subject ID".toList, 0), ("Session start time".toList, 1)]
               warnings := [⟨some "000000000002".toList, ⟨2005, 6, 1, 10, 0, 0⟩⟩] }
    ∧ cantabAgeRecord [] [("000000000002".toList, ⟨1997, 3, 1⟩)]
        [["Subject ID".toList, "Session start time".toList],
         ["000000000002".toList, "01.06.2005 10:00:00".toList]]
      = .ok (none, [.bogusSessionStartTime (PyDateTime.date ⟨2005, 6, 1, 10, 0, 0⟩)]) :=
  ⟨(implausible_date_warned_but_kept "000000000002".toList "01.06.2005 10:00:00".toList
      ⟨2005, 6, 1, 10, 0, 0⟩ (by rfl) (by rfl)).1,
   (implausible_date_warned_but_kept "000000000002".toList "01.06.2005 10:00:00".toList
      ⟨2005, 6, 1, 10, 0, 0⟩ (by rfl) (by rfl)).2 [] [("000000000002".toList, ⟨1997, 3, 1⟩)]
      ⟨1997, 3, 1⟩ (by decide)⟩

/-! ## A small regex engine (Brzozowski derivatives) for the filename
patterns of `additional_data.py` -/

/-- Regular expressions over characters; `cls` is a character class. -/
inductive RE where
  | eps
  | cls (p : Char → Bool)
  | cat (a b : RE)
  | alt (a b : RE)
  | star (r : RE)

/-- The empty language. -/
def RE.zero : RE := .cls (fun _ => false)

def RE.nullable : RE → Bool
  | .eps => true
  | .cls _ => false
  | .cat a b => a.nullable && b.nullable
  | .alt a b => a.nullable || b.nullable
  | .star _ => true

def RE.deriv : RE → Char → RE
  | .eps, _ => RE.zero
  | .cls p, c => if p c then .eps else RE.zero
  | .cat a b, c =>
      if a.nullable then .alt (.cat (a.deriv c) b) (b.deriv c)
      else .cat (a.deriv c) b
  | .alt a b, c => .alt (a.deriv c) (b.deriv c)
  | .star r, c => .cat (r.deriv c) (.star r)

/-- `re.match`: does some prefix of `s` belong to the language of `r`? -/
def RE.pmatch : RE → Str → Bool
  | r, [] => r.nullable
  | r, c :: rest => r.nullable || RE.pmatch (r.deriv c) rest

/-- The language of a regular expression. -/
inductive RE.Lang : RE → Str → Prop where
  | eps : RE.Lang .eps []
  | cls {p : Char → Bool} {c : Char} : p c = true → RE.Lang (.cls p) [c]
  | cat {a b : RE} {u v : Str} :
      RE.Lang a u → RE.Lang b v → RE.Lang (.cat a b) (u ++ v)
  | altL {a b : RE} {s : Str} : RE.Lang a s → RE.Lang (.alt a b) s
  | altR {a b : RE} {s : Str} : RE.Lang b s → RE.Lang (.alt a b) s
  | starNil {r : RE} : RE.Lang (.star r) []
  | starCons {r : RE} {u v : Str} :
      RE.Lang r u → RE.Lang (.star r) v → RE.Lang (.star r) (u ++ v)

lemma RE.nullable_sound (r : RE) (h : r.nullable = true) : RE.Lang r [] := by
  induction r with
  | eps => exact .eps
  | cls p => cases h
  | cat a b iha ihb =>
      simp only [RE.nullable, Bool.and_eq_true] at h
      exact (List.nil_append ([] : Str)) ▸ RE.Lang.cat (iha h.1) (ihb h.2)
  | alt a b iha ihb =>
      simp only [RE.nullable, Bool.or_eq_true] at h
      rcases h with h | h
      · exact .altL (iha h)
      · exact .altR (ihb h)
  | star r ih => exact .starNil

lemma RE.deriv_sound (r : RE) (c : Char) (s : Str)
    (h : RE.Lang (r.deriv c) s) : RE.Lang r (c :: s) := by
  induction r generalizing s with
  | eps =>
      cases h with
      | cls hc => cases hc
  | cls p =>
      unfold RE.deriv at h
      by_cases hp : p c = true
      · rw [if_pos hp] at h
        cases h
        exact .cls hp
      · rw [if_neg hp] at h
        cases h with
        | cls hc => cases hc
  | cat a b iha ihb =>
      unfold RE.deriv at h
      by_cases hn : a.nullable = true
      · rw [if_pos hn] at h
        cases h with
        | altL hl =>
            cases hl with
            | cat hu hv =>
                rename_i u v
                exact (List.cons_append c u v) ▸ RE.Lang.cat (iha _ hu) hv
        | altR hr =>
            have ha0 : RE.Lang a [] := RE.nullable_sound a hn
            exact (List.nil_append (c :: s)) ▸ RE.Lang.cat ha0 (ihb _ hr)
      · rw [if_neg hn] at h
        cases h with
        | cat hu hv =>
            rename_i u v
            exact (List.cons_append c u v) ▸ RE.Lang.cat (iha _ hu) hv
  | alt a b iha ihb =>
      cases h with
      | altL hl => exact .altL (iha _ hl)
      | altR hr => exact .altR (ihb _ hr)
  | star r ih =>
      cases h with
      | cat hu hv =>
          rename_i u v
          exact (List.cons_append c u v) ▸ RE.Lang.starCons (ih _ hu) hv

/-- Soundness of the prefix matcher: a successful `re.match` exhibits a
prefix of the input in the language. -/
lemma RE.pmatch_sound (r : RE) (s : Str) (h : r.pmatch s = true) :
    ∃ p q, s = p ++ q ∧ RE.Lang r p := by
  induction s generalizing r with
  | nil => exact ⟨[], [], rfl, RE.nullable_sound r h⟩
  | cons c rest ih =>
      unfold RE.pmatch at h
      rcases Bool.or_eq_true_iff.mp h with h | h
      · exact ⟨[], c :: rest, rfl, RE.nullable_sound r h⟩
      · obtain ⟨p, q, hpq, hlang⟩ := ih (r.deriv c) h
        exact ⟨c :: p, q, by rw [hpq]; rfl, RE.deriv_sound r c p hlang⟩

/-- Case-sensitive literal character. -/
def RE.chr (c : Char) : RE := .cls (fun x => x = c)

/-- Case-insensitive literal character (`re.IGNORECASE`). -/
def RE.chrCI (c : Char) : RE := .cls (fun x => x = c.toLower || x = c.toUpper)

/-- Case-sensitive literal string. -/
def RE.lit (s : Str) : RE := s.foldr (fun c r => .cat (.chr c) r) .eps

/-- Case-insensitive literal string. -/
def RE.litCI (s : Str) : RE := s.foldr (fun c r => .cat (.chrCI c) r) .eps

/-- `r?`. -/
def RE.opt (r : RE) : RE := .alt .eps r

/-- `r{n}`. -/
def RE.rep (r : RE) : Nat → RE
  | 0 => .eps
  | n + 1 => .cat r (RE.rep r n)

/-- The `\w` class (ASCII word characters). -/
def isWordChar (c : Char) : Bool := c.isAlphanum || c = '_'

/-- `\w+`. -/
def wplus : RE := .cat (.cls isWordChar) (.star (.cls isWordChar))

/-! The file-type tags (cantab.py lines 27–30, behavioral.py lines 19–22). -/

def CANTAB_CCLAR : Str := "cantab".toList
def DETAILED_DATASHEET_CSV : Str := "detailed_datasheet".toList
def DATASHEET_CSV : Str := "datasheet".toList
def REPORT_HTML : Str := "report".toList
def FT_CSV : Str := "ft".toList
def MID_CSV : Str := "mid".toList
def RECOG_CSV : Str := "recog".toList
def SS_CSV : Str := "ss".toList

/-! The loose patterns (`_LOOSE_ADDITIONAL_DATA_REGEXES`, additional_data.py
lines 54–65), all compiled with `re.IGNORECASE`. -/

/-- `(\w+_)?cant(_\w+)?\.cclar`. -/
def cantLoose : RE :=
  .cat (.opt (.cat wplus (.chr '_')))
    (.cat (.litCI "cant".toList)
      (.cat (.opt (.cat (.chr '_') wplus)) (.litCI ".cclar".toList)))

/-- `(\w+_)?detailed[_ ]datasheet(_\w+)?\.csv`. -/
def detailedLoose : RE :=
  .cat (.opt (.cat wplus (.chr '_')))
    (.cat (.litCI "detailed".toList)
      (.cat (.cls (fun c => c = '_' || c = ' '))
        (.cat (.litCI "datasheet".toList)
          (.cat (.opt (.cat (.chr '_') wplus)) (.litCI ".csv".toList)))))

/-- `(\w+_)?datasheet(_\w+)?\.csv`. -/
def datasheetLoose : RE :=
  .cat (.opt (.cat wplus (.chr '_')))
    (.cat (.litCI "datasheet".toList)
      (.cat (.opt (.cat (.chr '_') wplus)) (.litCI ".csv".toList)))

/-- `(\w+_)?report(_\w+)?\.html`. -/
def reportLoose : RE :=
  .cat (.opt (.cat wplus (.chr '_')))
    (.cat (.litCI "report".toList)
      (.cat (.opt (.cat (.chr '_') wplus)) (.litCI ".html".toList)))

/-- `ft_\w+\.csv` and its three siblings. -/
def ftLoose : RE := .cat (.litCI "ft_".toList) (.cat wplus (.litCI ".csv".toList))
def midLoose : RE := .cat (.litCI "mid_".toList) (.cat wplus (.litCI ".csv".toList))
def recogLoose : RE := .cat (.litCI "recog_".toList) (.cat wplus (.litCI ".csv".toList))
def ssLoose : RE := .cat (.litCI "ss_".toList) (.cat wplus (.litCI ".csv".toList))

/-! The exact patterns (`_EXACT_ADDITIONAL_DATA_REGEXES`, additional_data.py
lines 67–76); only the `ss_` one carries `re.IGNORECASE`. -/

/-- `(fu|FU)?`. -/
def fuOpt : RE := .opt (.alt (.lit "fu".toList) (.lit "FU".toList))

/-- `cant_\d{12}(fu|FU)?\.cclar`. -/
def cantExact : RE :=
  .cat (.lit "cant_".toList)
    (.cat (RE.rep (.cls pyDigit) 12) (.cat fuOpt (.lit ".cclar".toList)))

/-- `detailed_datasheet_\d{12}(fu|FU)?\.csv`. -/
def detailedExact : RE :=
  .cat (.lit "detailed_datasheet_".toList)
    (.cat (RE.rep (.cls pyDigit) 12) (.cat fuOpt (.lit ".csv".toList)))

/-- `datasheet_\d{12}(fu|FU)?\.csv`. -/
def datasheetExact : RE :=
  .cat (.lit "datasheet_".toList)
    (.cat (RE.rep (.cls pyDigit) 12) (.cat fuOpt (.lit ".csv".toList)))

/-- `report_\d{12}(fu|FU)?\.html`. -/
def reportExact : RE :=
  .cat (.lit "report_".toList)
    (.cat (RE.rep (.cls pyDigit) 12) (.cat fuOpt (.lit ".html".toList)))

def ftExact : RE :=
  .cat (.lit "ft_".toList)
    (.cat (RE.rep (.cls pyDigit) 12) (.cat fuOpt (.lit ".csv".toList)))
def midExact : RE :=
  .cat (.lit "mid_".toList)
    (.cat (RE.rep (.cls pyDigit) 12) (.cat fuOpt (.lit ".csv".toList)))
def recogExact : RE :=
  .cat (.lit "recog_".toList)
    (.cat (RE.rep (.cls pyDigit) 12) (.cat fuOpt (.lit ".csv".toList)))

/-- `ss_\d{12}(fu|FU)?\.csv` with `re.IGNORECASE`. -/
def ssExact : RE :=
  .cat (.litCI "ss_".toList)
    (.cat (RE.rep (.cls pyDigit) 12)
      (.cat (.opt (.litCI "fu".toList)) (.litCI ".csv".toList)))

/-- `_LOOSE_ADDITIONAL_DATA_REGEXES`, in source order. -/
def LOOSE_ADDITIONAL_DATA_REGEXES : List (RE × Str) :=
  [(cantLoose, CANTAB_CCLAR), (detailedLoose, DETAILED_DATASHEET_CSV),
   (datasheetLoose, DATASHEET_CSV), (reportLoose, REPORT_HTML),
   (ftLoose, FT_CSV), (midLoose, MID_CSV), (recogLoose, RECOG_CSV),
   (ssLoose, SS_CSV)]

/-- `_EXACT_ADDITIONAL_DATA_REGEXES`, in source order. -/
def EXACT_ADDITIONAL_DATA_REGEXES : List (RE × Str) :=
  [(cantExact, CANTAB_CCLAR), (detailedExact, DETAILED_DATASHEET_CSV),
   (datasheetExact, DATASHEET_CSV), (reportExact, REPORT_HTML),
   (ftExact, FT_CSV), (midExact, MID_CSV), (recogExact, RECOG_CSV),
   (ssExact, SS_CSV)]

/-- `_match_additional_data_sops` (additional_data.py lines 79–111): walk
the selected rule list in order, return the tag of the first pattern whose
`re.match` succeeds, `None` when no rule matches. -/
def match_additional_data_sops (filename : Str) (exact : Bool) : Option Str :=
  let regexList := if exact then EXACT_ADDITIONAL_DATA_REGEXES
                   else LOOSE_ADDITIONAL_DATA_REGEXES
  (regexList.find? (fun rt => rt.1.pmatch filename)).map (·.2)

lemma RE.lang_lit (l u : Str) (h : RE.Lang (RE.lit l) u) : u = l := by
  induction l generalizing u with
  | nil =>
      cases h
      rfl
  | cons c l ih =>
      cases h with
      | cat hu hv =>
          rename_i u1 u2
          cases hu with
          | cls hc =>
              rename_i x
              simp only [decide_eq_true_eq] at hc
              subst hc
              rw [ih u2 hv]
              rfl

lemma RE.lang_litCI_cons (c : Char) (l u : Str)
    (h : RE.Lang (RE.litCI (c :: l)) u) :
    ∃ x u', u = x :: u' ∧ (x = c.toLower ∨ x = c.toUpper) ∧ RE.Lang (RE.litCI l) u' := by
  cases h with
  | cat hu hv =>
      rename_i u1 u2
      cases hu with
      | cls hc =>
          rename_i x
          simp only [Bool.or_eq_true, decide_eq_true_eq] at hc
          exact ⟨x, u2, rfl, hc, hv⟩

lemma RE.lang_litCI_chars (l : Str) (Q : Char → Prop)
    (hl : ∀ lc ∈ l, ∀ x : Char, (x = lc.toLower ∨ x = lc.toUpper) → Q x) :
    ∀ u, RE.Lang (RE.litCI l) u → ∀ x ∈ u, Q x := by
  induction l with
  | nil =>
      intro u h x hx
      cases h
      cases hx
  | cons c l ih =>
      intro u h x hx
      obtain ⟨y, u', rfl, hy, hrest⟩ := RE.lang_litCI_cons c l u h
      rcases List.mem_cons.mp hx with h1 | h1
      · exact hl c (List.mem_cons_self c l) x (h1 ▸ hy)
      · exact ih (fun lc hlc => hl lc (List.mem_cons_of_mem c hlc)) u' hrest x h1

lemma RE.lang_star_cls (p : Char → Bool) (u : Str)
    (h : RE.Lang (.star (.cls p)) u) : ∀ x ∈ u, p x = true := by
  generalize hr : RE.star (RE.cls p) = r at h
  induction h with
  | eps => cases hr
  | cls _ => cases hr
  | cat _ _ _ _ => cases hr
  | altL _ _ => cases hr
  | altR _ _ => cases hr
  | starNil =>
      intro x hx
      cases hx
  | starCons hu hv ihu ihv =>
      cases hr
      intro x hx
      rcases List.mem_append.mp hx with h1 | h1
      · cases hu with
        | cls hc =>
            rename_i c
            rcases List.mem_singleton.mp h1 with rfl
            exact hc
      · exact ihv rfl x h1

lemma RE.lang_wplus_chars (u : Str) (h : RE.Lang wplus u) :
    ∀ x ∈ u, isWordChar x = true := by
  cases h with
  | cat hu hv =>
      rename_i u1 u2
      intro x hx
      rcases List.mem_append.mp hx with h1 | h1
      · cases hu with
        | cls hc =>
            rcases List.mem_singleton.mp h1 with rfl
            exact hc
      · exact RE.lang_star_cls isWordChar u2 hv x h1

lemma RE.lang_opt (r : RE) (u : Str) (h : RE.Lang (RE.opt r) u) :
    u = [] ∨ RE.Lang r u := by
  cases h with
  | altL hl => cases hl; exact Or.inl rfl
  | altR hr => exact Or.inr hr

/-- Characters accepted by the optional `(\w+_)?` prefix are word chars. -/
lemma RE.lang_opt_wplus_underscore (u : Str)
    (h : RE.Lang (RE.opt (.cat wplus (.chr '_'))) u) :
    ∀ x ∈ u, isWordChar x = true := by
  rcases RE.lang_opt _ u h with rfl | h2
  · intro x hx
    cases hx
  · cases h2 with
    | cat hu hv =>
        rename_i u1 u2
        intro x hx
        rcases List.mem_append.mp hx with h1 | h1
        · exact RE.lang_wplus_chars u1 hu x h1
        · cases hv with
          | cls hc =>
              rcases List.mem_singleton.mp h1 with rfl
              simp only [decide_eq_true_eq] at hc
              subst hc
              decide

/-- Characters accepted by the optional `(_\w+)?` suffix are word chars. -/
lemma RE.lang_opt_underscore_wplus (u : Str)
    (h : RE.Lang (RE.opt (.cat (.chr '_') wplus)) u) :
    ∀ x ∈ u, isWordChar x = true := by
  rcases RE.lang_opt _ u h with rfl | h2
  · intro x hx
    cases hx
  · cases h2 with
    | cat hu hv =>
        rename_i u1 u2
        intro x hx
        rcases List.mem_append.mp hx with h1 | h1
        · cases hu with
          | cls hc =>
              rcases List.mem_singleton.mp h1 with rfl
              simp only [decide_eq_true_eq] at hc
              subst hc
              decide
        · exact RE.lang_wplus_chars u2 hv x h1

lemma word_ne_dot (x : Char) (hx : isWordChar x = true) : x ≠ '.' := by
  intro he
  subst he
  exact absurd hx (by decide)

lemma litCI_ne_dot_chars (l : Str)
    (hl : ∀ lc ∈ l, lc.toLower ≠ '.' ∧ lc.toUpper ≠ '.') :
    ∀ u, RE.Lang (RE.litCI l) u → ∀ x ∈ u, x ≠ '.' := by
  intro u h x hx
  refine RE.lang_litCI_chars l (fun x => x ≠ '.') ?_ u h x hx
  intro lc hlc y hy
  rcases hy with rfl | rfl
  · exact (hl lc hlc).1
  · exact (hl lc hlc).2

/-- Shape of a `cantLoose` match: word characters up to the first dot,
which is followed by two letters that are each `c` or `C`. -/
lemma cantLoose_shape (p : Str) (h : RE.Lang cantLoose p) :
    ∃ a c1 c2 r, p = a ++ '.' :: c1 :: c2 :: r
      ∧ (∀ x ∈ a, x ≠ '.') ∧ (c1 = 'c' ∨ c1 = 'C') ∧ (c2 = 'c' ∨ c2 = 'C') := by
  cases h with
  | cat h1 hrest =>
      rename_i u1 r1
      cases hrest with
      | cat h2 hrest2 =>
          rename_i u2 r2
          cases hrest2 with
          | cat h3 h4 =>
              rename_i u3 u4
              rw [show ".cclar".toList = '.' :: "cclar".toList from rfl] at h4
              obtain ⟨x0, u4a, rfl, hx0, h4a⟩ := RE.lang_litCI_cons '.' "cclar".toList u4 h4
              rw [show "cclar".toList = 'c' :: "clar".toList from rfl] at h4a
              obtain ⟨x1, u4b, rfl, hx1, h4b⟩ := RE.lang_litCI_cons 'c' "clar".toList u4a h4a
              rw [show "clar".toList = 'c' :: "lar".toList from rfl] at h4b
              obtain ⟨x2, u4c, rfl, hx2, h4c⟩ := RE.lang_litCI_cons 'c' "lar".toList u4b h4b
              have hx0' : x0 = '.' := by
                rcases hx0 with rfl | rfl <;> decide
              subst hx0'
              refine ⟨u1 ++ (u2 ++ u3), x1, x2, u4c, ?_, ?_, ?_, ?_⟩
              · simp [List.append_assoc]
              · intro x hx
                rcases List.mem_append.mp hx with hx | hx
                · exact word_ne_dot x (RE.lang_opt_wplus_underscore u1 h1 x hx)
                · rcases List.mem_append.mp hx with hx | hx
                  · exact litCI_ne_dot_chars "cant".toList (by decide) u2 h2 x hx
                  · exact word_ne_dot x (RE.lang_opt_underscore_wplus u3 h3 x hx)
              · rcases hx1 with rfl | rfl
                · exact Or.inl (by decide)
                · exact Or.inr (by decide)
              · rcases hx2 with rfl | rfl
                · exact Or.inl (by decide)
                · exact Or.inr (by decide)

/-- Shape of a `detailedLoose` match: non-dot characters up to the first
dot, which is followed by `c`/`C` and then `s`/`S`. -/
lemma detailedLoose_shape (p : Str) (h : RE.Lang detailedLoose p) :
    ∃ a c1 c2 r, p = a ++ '.' :: c1 :: c2 :: r
      ∧ (∀ x ∈ a, x ≠ '.') ∧ (c1 = 'c' ∨ c1 = 'C') ∧ (c2 = 's' ∨ c2 = 'S') := by
  cases h with
  | cat h1 hrest =>
      rename_i u1 r1
      cases hrest with
      | cat h2 hrest2 =>
          rename_i u2 r2
          cases hrest2 with
          | cat h3 hrest3 =>
              rename_i u3 r3
              cases hrest3 with
              | cat h4 hrest4 =>
                  rename_i u4 r4
                  cases hrest4 with
                  | cat h5 h6 =>
                      rename_i u5 u6
                      rw [show ".csv".toList = '.' :: "csv".toList from rfl] at h6
                      obtain ⟨x0, u6a, rfl, hx0, h6a⟩ :=
                        RE.lang_litCI_cons '.' "csv".toList u6 h6
                      rw [show "csv".toList = 'c' :: "sv".toList from rfl] at h6a
                      obtain ⟨x1, u6b, rfl, hx1, h6b⟩ :=
                        RE.lang_litCI_cons 'c' "sv".toList u6a h6a
                      rw [show "sv".toList = 's' :: "v".toList from rfl] at h6b
                      obtain ⟨x2, u6c, rfl, hx2, h6c⟩ :=
                        RE.lang_litCI_cons 's' "v".toList u6b h6b
                      have hx0' : x0 = '.' := by
                        rcases hx0 with rfl | rfl <;> decide
                      subst hx0'
                      refine ⟨u1 ++ (u2 ++ (u3 ++ (u4 ++ u5))), x1, x2, u6c, ?_, ?_, ?_, ?_⟩
                      · simp [List.append_assoc]
                      · intro x hx
                        rcases List.mem_append.mp hx with hx | hx
                        · exact word_ne_dot x (RE.lang_opt_wplus_underscore u1 h1 x hx)
                        · rcases List.mem_append.mp hx with hx | hx
                          · exact litCI_ne_dot_chars "detailed".toList (by decide) u2 h2 x hx
                          · rcases List.mem_append.mp hx with hx | hx
                            · cases h3 with
                              | cls hc =>
                                  rcases List.mem_singleton.mp hx with rfl
                                  simp only [Bool.or_eq_true, decide_eq_true_eq] at hc
                                  rcases hc with rfl | rfl <;> decide
                            · rcases List.mem_append.mp hx with hx | hx
                              · exact litCI_ne_dot_chars "datasheet".toList (by decide) u4 h4 x hx
                              · exact word_ne_dot x (RE.lang_opt_underscore_wplus u5 h5 x hx)
                      · rcases hx1 with rfl | rfl
                        · exact Or.inl (by decide)
                        · exact Or.inr (by decide)
                      · rcases hx2 with rfl | rfl
                        · exact Or.inl (by decide)
                        · exact Or.inr (by decide)

/-- Splitting a string at its first dot is unique. -/
lemma dot_split_unique (a : Str) : ∀ (b u v : Str),
    a ++ '.' :: u = b ++ '.' :: v →
    (∀ x ∈ a, x ≠ '.') → (∀ x ∈ b, x ≠ '.') → a = b ∧ u = v := by
  induction a with
  | nil =>
      intro b u v h ha hb
      cases b with
      | nil =>
          simp only [List.nil_append] at h
          injection h with h1 h2
          exact ⟨rfl, h2⟩
      | cons y b' =>
          simp only [List.nil_append, List.cons_append] at h
          injection h with h1 h2
          subst h1
          exact absurd rfl (hb '.' (List.mem_cons_self _ _))
  | cons x a' ih =>
      intro b u v h ha hb
      cases b with
      | nil =>
          simp only [List.cons_append, List.nil_append] at h
          injection h with h1 h2
          subst h1
          exact absurd rfl (ha '.' (List.mem_cons_self _ _))
      | cons y b' =>
          simp only [List.cons_append] at h
          injection h with h1 h2
          subst h1
          obtain ⟨he, hu⟩ := ih b' u v h2 (fun z hz => ha z (List.mem_cons_of_mem _ hz))
            (fun z hz => hb z (List.mem_cons_of_mem _ hz))
          exact ⟨by rw [he], hu⟩

lemma cantExact_head (p : Str) (h : RE.Lang cantExact p) : ∃ t, p = 'c' :: t := by
  cases h with
  | cat h1 h2 =>
      rename_i u1 u2
      have hu := RE.lang_lit "cant_".toList u1 h1
      subst hu
      exact ⟨"ant_".toList ++ u2, rfl⟩

lemma detailedExact_head (p : Str) (h : RE.Lang detailedExact p) : ∃ t, p = 'd' :: t := by
  cases h with
  | cat h1 h2 =>
      rename_i u1 u2
      have hu := RE.lang_lit "detailed_datasheet_".toList u1 h1
      subst hu
      exact ⟨"etailed_datasheet_".toList ++ u2, rfl⟩

/-- In strict mode, no filename is matched by both the `cant_` pattern and
the detailed-datasheet pattern. -/
lemma cantExact_excluded (fn : Str) (hdet : detailedExact.pmatch fn = true) :
    cantExact.pmatch fn = false := by
  cases hc : cantExact.pmatch fn with
  | false => rfl
  | true =>
      exfalso
      obtain ⟨p, q, hpq, hl⟩ := RE.pmatch_sound _ fn hc
      obtain ⟨p', q', hpq', hl'⟩ := RE.pmatch_sound _ fn hdet
      obtain ⟨t, rfl⟩ := cantExact_head p hl
      obtain ⟨t', rfl⟩ := detailedExact_head p' hl'
      rw [hpq] at hpq'
      simp only [List.cons_append] at hpq'
      injection hpq' with h1 h2
      cases h1

/-- In loose mode, no filename is matched by both the CANTAB pattern
(extension `.cclar`) and the detailed-datasheet pattern (`.csv`): both
patterns pin down the two characters after the input's first dot. -/
lemma cantLoose_excluded (fn : Str) (hdet : detailedLoose.pmatch fn = true) :
    cantLoose.pmatch fn = false := by
  cases hc : cantLoose.pmatch fn with
  | false => rfl
  | true =>
      exfalso
      obtain ⟨p, q, hpq, hl⟩ := RE.pmatch_sound _ fn hc
      obtain ⟨p', q', hpq', hl'⟩ := RE.pmatch_sound _ fn hdet
      obtain ⟨a, c1, c2, r, rfl, ha, hc1, hc2⟩ := cantLoose_shape p hl
      obtain ⟨b, d1, d2, r', rfl, hb, hd1, hd2⟩ := detailedLoose_shape p' hl'
      rw [hpq] at hpq'
      simp only [List.append_assoc, List.cons_append] at hpq'
      obtain ⟨he, htail⟩ := dot_split_unique a b (c1 :: c2 :: (r ++ q)) (d1 :: d2 :: (r' ++ q'))
        hpq' ha hb
      injection htail with he1 htail
      injection htail with he2 htail
      subst he1
      subst he2
      rcases hc2 with rfl | rfl <;> rcases hd2 with h | h <;> cases h

/-- C6: rules are evaluated in list order, first match wins: every filename
matched by both the detailed-datasheet pattern and the generic datasheet
pattern is classified as a detailed datasheet (in both loose and strict
mode — the preceding CANTAB rule cannot match such a filename);
in particular `classify("detailed_datasheet_012345678901.csv", strict)`
returns the detailed-datasheet tag, not the generic datasheet tag; and a
filename matching no rule yields `None`. -/
theorem detailed_beats_generic_datasheet :
    (∀ fn : Str, detailedLoose.pmatch fn = true → datasheetLoose.pmatch fn = true →
      match_additional_data_sops fn false = some DETAILED_DATASHEET_CSV)
    ∧ (∀ fn : Str, detailedExact.pmatch fn = true → datasheetExact.pmatch fn = true →
      match_additional_data_sops fn true = some DETAILED_DATASHEET_CSV)
    ∧ match_additional_data_sops "detailed_datasheet_012345678901.csv".toList true
        = some DETAILED_DATASHEET_CSV
    ∧ some DETAILED_DATASHEET_CSV ≠ some DATASHEET_CSV
    ∧ (∀ (fn : Str) (exact : Bool),
        (∀ rt ∈ (if exact then EXACT_ADDITIONAL_DATA_REGEXES
                 else LOOSE_ADDITIONAL_DATA_REGEXES), rt.1.pmatch fn = false) →
        match_additional_data_sops fn exact = none) := by
  refine ⟨?_, ?_, by rfl, by decide, ?_⟩
  · intro fn hdet hgen
    have hcant := cantLoose_excluded fn hdet
    show (LOOSE_ADDITIONAL_DATA_REGEXES.find? (fun rt => rt.1.pmatch fn)).map (·.2)
      = some DETAILED_DATASHEET_CSV
    unfold LOOSE_ADDITIONAL_DATA_REGEXES
    rw [List.find?_cons_of_neg _ (by simp [hcant])]
    rw [List.find?_cons_of_pos _ (by simp [hdet])]
    rfl
  · intro fn hdet hgen
    have hcant := cantExact_excluded fn hdet
    show (EXACT_ADDITIONAL_DATA_REGEXES.find? (fun rt => rt.1.pmatch fn)).map (·.2)
      = some DETAILED_DATASHEET_CSV
    unfold EXACT_ADDITIONAL_DATA_REGEXES
    rw [List.find?_cons_of_neg _ (by simp [hcant])]
    rw [List.find?_cons_of_pos _ (by simp [hdet])]
    rfl
  · intro fn exact hall
    cases exact with
    | false =>
        show (LOOSE_ADDITIONAL_DATA_REGEXES.find? (fun rt => rt.1.pmatch fn)).map (·.2) = none
        rw [List.find?_eq_none.mpr (fun x hx => by simp [hall x hx])]
        rfl
    | true =>
        show (EXACT_ADDITIONAL_DATA_REGEXES.find? (fun rt => rt.1.pmatch fn)).map (·.2) = none
        rw [List.find?_eq_none.mpr (fun x hx => by simp [hall x hx])]
        rfl

theorem detailed_beats_generic_datasheet_witness :
    match_additional_data_sops "detailed_datasheet.csv".toList false
      = some DETAILED_DATASHEET_CSV
    ∧ match_additional_data_sops "z.q".toList true = none :=
  ⟨detailed_beats_generic_datasheet.1 "detailed_datasheet.csv".toList (by rfl) (by rfl),
   detailed_beats_generic_datasheet.2.2.2.2 "z.q".toList true (by decide)⟩

/-! ## Archive conformance validation (`sanity/imaging.py`) -/

/-- The fields of a `zipinfo` entry the checks consult. -/
structure ZipEntry where
  filename : Str
  fileSize : Nat
  deriving DecidableEq, Repr

/-- `ZipTree` (imaging.py lines 137–178): a node holds its path-so-far, a
dict of subdirectories and a dict of files. -/
inductive ZipTree where
  | mk (filename : Str) (directories : List (Str × ZipTree)) (files : List (Str × ZipEntry))

def ZipTree.filename : ZipTree → Str
  | .mk f _ _ => f

def ZipTree.directories : ZipTree → List (Str × ZipTree)
  | .mk _ ds _ => ds

def ZipTree.files : ZipTree → List (Str × ZipEntry)
  | .mk _ _ fs => fs

/-- `d[name]` on a ZipTree's directory dict. -/
def lookupDir (t : ZipTree) (name : Str) : Option ZipTree :=
  (t.directories.find? (fun dz => dz.1 = name)).map (·.2)

/-- Truthiness of a Python variable that is either `None` or a string. -/
def pyTruthy : Option Str → Bool
  | some s => !s.isEmpty
  | none => false

/-- `s.isdigit()`: non-empty and all digits. -/
def pyIsDigitStr (s : Str) : Bool := !s.isEmpty && s.all pyDigit

/-- `s.endswith(t)`. -/
def pyEndsWith (s t : Str) : Bool := t.isSuffixOf s

/-- `s[-n:]` (for `n = 0` Python yields the whole string since `-0 = 0`). -/
def pyNegSliceFrom (s : Str) (n : Nat) : Str :=
  if n = 0 then s else s.drop (s.length - n)

/-- `s[:-n]` for `0 < n` and `s[:len(s)-n]`-style suffix removal. -/
def pyDropLast (s : Str) (n : Nat) : Str := s.take (s.length - n)

/-- `s[:-n]` (for `n = 0` Python yields the empty string since `-0 = 0`). -/
def pyDropSuffixSlice (s : Str) (n : Nat) : Str :=
  if n = 0 then [] else pyDropLast s n

/-- `os.path.basename`. -/
def pyBasename (p : Str) : Str := (p.reverse.takeWhile (fun c => c ≠ '/')).reverse

/-- The messages `_check_psc1` can yield (imaging.py lines 65–103). -/
inductive PscMsg where
  | shouldEndWithSuffix (subjectId sfx : Str)
  | digitCount (subjectId : Str) (n : Nat)
  | unexpectedSuffix (subjectId tail : Str)
  | shouldContainTwelveDigits (subjectId : Str)
  | charCount (subjectId : Str) (n : Nat)
  | invalidPsc1 (subjectId : Str)
  | expectedToBe (subjectId psc1 : Str)
  deriving DecidableEq, Repr

/-- The diagnostic messages of the imaging sanity checks. -/
inductive Msg where
  | unexpectedRootFile
  | lacksUppermostFolder
  | incorrectUppermostName (m : PscMsg)
  | unexpectedFileUppermost
  | unexpectedSubfolderUppermost
  | additionalDataOnlyScanning
  | scanningMissing
  | scanningNoSubfolders
  | incorrectBehavioralName (m : PscMsg)
  | unexpectedBehavioralName
  | incorrectPhysiologicalName (m : PscMsg)
  | unexpectedScanningFile
  | unexpectedBehavioralFile
  | incorrectBehavioralContent (m : PscMsg)
  | missingSubjectId
  | trialsCount (actual expected : Int)
  | dateExpected (expected actual : PyDate)
  | missingBehavioral (x : Str)
  | fileEmpty
  | folderEmpty
  | psc1Expected (subjectId : Str) (psc1 : Option Str)
  | missingPsc1 (psc1 : Option Str)
  | unableToReadDicom (psc1 : Option Str)
  | imageDataMissing
  | additionalDataMissing
  | zipEmpty
  | cannotReadZip (m : Str)
  deriving DecidableEq, Repr

/-- `Error(path, message)` (core.py lines 258–290; the optional sample is
unused by these checks). -/
structure Err where
  path : Str
  msg : Msg
  deriving DecidableEq, Repr

/-- `_check_psc1` (imaging.py lines 65–103), with the generator's yields
collected into a list; `reg` stands for the module-level `PSC2_FROM_PSC1`. -/
def checkPsc1 (reg : PyDict Str Str) (subjectId0 : Str) (suffix psc1 : Option Str) :
    List PscMsg :=
  let step1 : List PscMsg × Str :=
    match suffix with
    | some sfx =>
        if sfx.isEmpty then ([], subjectId0)
        else if pyEndsWith subjectId0 sfx then ([], pyDropLast subjectId0 sfx.length)
        else if subjectId0.length ≤ 12 ∨ pyIsDigitStr subjectId0 then
          ([.shouldEndWithSuffix subjectId0 sfx], subjectId0)
        else ([], subjectId0)
    | none => ([], subjectId0)
  let subjectId1 := step1.2
  let step2 : List PscMsg × Str :=
    if pyIsDigitStr subjectId1 then
      (if subjectId1.length ≠ 12 then [.digitCount subjectId1 subjectId1.length] else [],
       subjectId1)
    else if subjectId1.length > 12 ∧ pyIsDigitStr (subjectId1.take 12)
        ∧ (match subjectId1.drop 12 with
            | c :: _ => pyDigit c
            | [] => false) = false then
      ([.unexpectedSuffix subjectId1 (subjectId1.drop 12)], subjectId1.take 12)
    else ([], subjectId1)
  let subjectId2 := step2.2
  let step3 : List PscMsg :=
    if ¬ pyIsDigitStr subjectId2 then [.shouldContainTwelveDigits subjectId2]
    else if subjectId2.length ≠ 12 then [.charCount subjectId2 subjectId2.length]
    else if ¬ pyContains reg subjectId2 then [.invalidPsc1 subjectId2]
    else
      match psc1 with
      | some pp =>
          if pp.isEmpty then []
          else
            let pp' :=
              match suffix with
              | some sfx =>
                  if ¬sfx.isEmpty ∧ pyEndsWith pp sfx then pyDropLast pp sfx.length else pp
              | none => pp
            if subjectId2 ≠ pp' then [.expectedToBe subjectId2 pp'] else []
      | none => []
  step1.1 ++ step2.1 ++ step3

/-- `_BEHAVIORAL_PREFIX_EXTENSION` (imaging.py lines 57–62): tag, prefix
and extension, in the source's insertion order. -/
def BEHAVIORAL_PREFIX_EXTENSION : List (Str × (Str × Str)) :=
  [(MID_CSV, ("mid_".toList, ".csv".toList)),
   (FT_CSV, ("ft_".toList, ".csv".toList)),
   (SS_CSV, ("ss_".toList, ".csv".toList)),
   (RECOG_CSV, ("recog_".toList, ".csv".toList))]

/-- `_check_behavioral_name` (imaging.py lines 231–236). -/
def check_behavioral_name (filename : Str) : Option Str × Option Str :=
  match BEHAVIORAL_PREFIX_EXTENSION.find? (fun kpe =>
      filename.take kpe.2.1.length = kpe.2.1
      && pyNegSliceFrom filename kpe.2.2.length = kpe.2.2) with
  | some kpe => (some kpe.1, some (pyDropLast (filename.drop kpe.2.1.length) kpe.2.2.length))
  | none => (none, none)

/-- `s.rsplit('.', 1)`. -/
def pyRsplitDot1 (s : Str) : Str × Option Str :=
  let r := s.reverse
  let t := r.takeWhile (fun c => c ≠ '.')
  let rest := r.dropWhile (fun c => c ≠ '.')
  match rest with
  | [] => (s, none)
  | _ :: before => (before.reverse, some t.reverse)

/-- `_check_physiological_name` (imaging.py lines 239–265). -/
def check_physiological_name (filename : Str) : Option Str × Option Str :=
  let rx := pyRsplitDot1 filename
  match rx.2 with
  | some ext =>
      if ext = "ecg".toList ∨ ext = "ext".toList ∨ ext = "puls".toList
          ∨ ext = "resp".toList then
        let root := rx.1
        let root' :=
          if pyNegSliceFrom root "_rest".toList.length = "_rest".toList
          then pyDropLast root "_rest".toList.length else root
        (some ext, some root')
      else if ext = "log".toList then
        let root := rx.1
        if root.take "SCANPHYSLOG".toList.length = "SCANPHYSLOG".toList then
          let root' := root.drop "SCANPHYSLOG".toList.length
          if pyIsDigitStr root' ∧ root'.length = "20140409112224".toList.length then
            (some ext, none)
          else (none, none)
        else (none, none)
      else if ext = "txt".toList then
        let root := rx.1
        if root.take "ImagenBRest_Resting_1_Raw_".toList.length
            = "ImagenBRest_Resting_1_Raw_".toList then
          (some ext, some (root.drop "ImagenBRest_Resting_1_Raw_".toList.length))
        else if root.take "ImagenBRest_Resting_1_Times_".toList.length
            = "ImagenBRest_Resting_1_Times_".toList then
          (some ext, some (root.drop "ImagenBRest_Resting_1_Times_".toList.length))
        else (none, none)
      else (none, none)
  | none => (none, none)

/-- The tuple returned by `read_mid`/`read_ft`/`read_ss`/`read_recog`
(behavioral.py), read through the extraction collaborator. -/
structure BehRead where
  subjectId : Option Str
  timestamp : Option PyDateTime
  trials : List Int
  errors : List Err

/-- `trials[-1]`: raises `IndexError` on an empty list. -/
def pyLastE {α : Type} (l : List α) : Except PyErr α :=
  match l.getLast? with
  | some x => .ok x
  | none => .error .indexError

/-- State accumulated by the `_check_scanning` loop. -/
structure ScanState where
  ids : List (Option Str)
  actual : List Str
  errs : List Err

/-- The `expected_tests` set of `_check_scanning` (imaging.py lines
292–293): `... if expected else None`, so a falsy `expected` (`None` or an
empty dict) yields `None`; otherwise `expected[x]` raises `KeyError` when
a test key is missing. -/
def scanningExpectedTests (expected : Option (PyDict Str Str)) :
    Except PyErr (Option (List Str)) :=
  match expected with
  | none => .ok none
  | some e =>
      if e.isEmpty then .ok none
      else
        ([MID_CSV, FT_CSV, SS_CSV, RECOG_CSV].foldlM (fun acc x => do
            let v ← pyGetE e x
            if v ≠ "Missing".toList then pure (acc ++ [x]) else pure acc) []).map some

/-- The per-type content checks of `_check_scanning` (imaging.py lines
327–390): check the embedded subject id, the trial count (`trials[-1]` can
raise `IndexError` on an empty list), the acquisition date, and append the
reader's own errors. -/
def behavioralContentCheck (reg : PyDict Str Str) (r : BehRead)
    (suffix psc1 : Option Str) (date : Option PyDate) (bt : Str) (zfn : Str)
    (st : ScanState) : Except PyErr ScanState := do
  let st1 :=
    if pyTruthy r.subjectId then
      { st with
        errs := st.errs ++ (checkPsc1 reg (r.subjectId.getD []) suffix psc1).map
          (fun m => Err.mk zfn (.incorrectBehavioralContent m))
        actual := pySetAdd st.actual bt }
    else { st with errs := st.errs ++ [Err.mk zfn .missingSubjectId] }
  let st2 := { st1 with ids := pySetAdd st1.ids r.subjectId }
  let st3 ←
    if bt = MID_CSV then do
      let last ← pyLastE r.trials
      pure (if last ≠ 42 then
        { st2 with errs := st2.errs ++ [Err.mk zfn (.trialsCount last 42)] } else st2)
    else if bt = FT_CSV then
      pure (if r.trials.length ≠ 24 then
        { st2 with errs := st2.errs ++ [Err.mk zfn (.trialsCount r.trials.length 24)] }
        else st2)
    else if bt = SS_CSV then do
      let last ← pyLastE r.trials
      pure (if last ≠ 360 then
        { st2 with errs := st2.errs ++ [Err.mk zfn (.trialsCount last 360)] } else st2)
    else do
      let _ ← pure ()
      pure (if r.trials.length ≠ 5 then
        { st2 with errs := st2.errs ++ [Err.mk zfn (.trialsCount r.trials.length 5)] }
        else st2)
  match date with
  | none => pure st3
  | some dd =>
      match r.timestamp with
      | none => throw .attributeError
      | some ts =>
          pure (if dd ≠ ts.date then
            { st3 with errs := st3.errs ++ [Err.mk zfn (.dateExpected dd ts.date)] }
            else st3)

/-- One iteration of the file loop of `_check_scanning` (imaging.py lines
302–390); `oracle` stands for the behavioral file readers applied to the
extracted file. -/
def scanningFileStep (reg : PyDict Str Str) (oracle : Str → Str → BehRead)
    (suffix psc1 : Option Str) (date : Option PyDate)
    (expectedTests : Option (List Str)) (st : ScanState) (fz : Str × ZipEntry) :
    Except PyErr ScanState := do
  let f := fz.1
  let z := fz.2
  let bn := check_behavioral_name f
  match bn.1 with
  | some bt => do
      let st1 :=
        if pyTruthy bn.2 then
          { st with
            ids := pySetAdd st.ids bn.2
            errs := st.errs ++ (checkPsc1 reg (bn.2.getD []) suffix psc1).map
              (fun m => Err.mk z.filename (.incorrectBehavioralName m)) }
        else { st with errs := st.errs ++ [Err.mk z.filename .unexpectedBehavioralName] }
      let st2 :=
        match expectedTests with
        | some tests =>
            if tests ≠ [] ∧ bt ∉ tests then
              { st1 with errs := st1.errs ++ [Err.mk z.filename .unexpectedBehavioralFile] }
            else st1
        | none => st1
      let r := oracle bt z.filename
      let st3 ← behavioralContentCheck reg r suffix psc1 date bt z.filename st2
      pure { st3 with errs := st3.errs ++ r.errors }
  | none =>
      let pn := check_physiological_name f
      match pn.1 with
      | some _ =>
          pure (if pyTruthy pn.2 then
            { st with
              ids := pySetAdd st.ids pn.2
              errs := st.errs ++ (checkPsc1 reg (pn.2.getD []) suffix psc1).map
                (fun m => Err.mk z.filename (.incorrectPhysiologicalName m)) }
          else st)
      | none =>
          pure { st with errs := st.errs ++ [Err.mk z.filename .unexpectedScanningFile] }

/-- `_check_scanning` (imaging.py lines 268–398). -/
def check_scanning (reg : PyDict Str Str) (oracle : Str → Str → BehRead)
    (ziptree : ZipTree) (suffix psc1 : Option Str) (date : Option PyDate)
    (expected : Option (PyDict Str Str)) :
    Except PyErr (List (Option Str) × List Err) := do
  let expectedTests ← scanningExpectedTests expected
  let dirErrs := ziptree.directories.map (fun dz => Err.mk dz.2.filename .scanningNoSubfolders)
  let st0 : ScanState := ⟨[], [], dirErrs⟩
  let st ← ziptree.files.foldlM (scanningFileStep reg oracle suffix psc1 date expectedTests) st0
  let st2 :=
    match expectedTests with
    | some tests =>
        if tests ≠ [] then
          let missing := (tests.filter (fun x => x ∉ st.actual)).map
            (fun x => Err.mk ziptree.filename (Msg.missingBehavioral x))
          { st with errs := st.errs ++ missing }
        else st
    | none => st
  pure (st2.ids, st2.errs)

/-- `_check_additional_data` (imaging.py lines 401–445). -/
def check_additional_data (reg : PyDict Str Str) (oracle : Str → Str → BehRead)
    (ziptree : ZipTree) (suffix psc1 : Option Str) (date : Option PyDate)
    (expected : Option (PyDict Str Str)) :
    Except PyErr (List (Option Str) × List Err) := do
  let errs0 :=
    if ziptree.directories.length > 1 then
      ziptree.directories.filterMap (fun dz =>
        if dz.1 ≠ "Scanning".toList
        then some (Err.mk dz.2.filename .additionalDataOnlyScanning) else none)
    else []
  match lookupDir ziptree "Scanning".toList with
  | some sub => do
      let se ← check_scanning reg oracle sub suffix psc1 date expected
      pure (se.1, errs0 ++ se.2)
  | none =>
      pure ([], errs0 ++ [Err.mk (ziptree.filename ++ "Scanning/".toList) .scanningMissing])

mutual
/-- `_files` (imaging.py lines 448–464). -/
def filesOf : ZipTree → List Str
  | .mk fn ds fs => fs.map (fun p => fn ++ p.1) ++ filesOfDirs ds

def filesOfDirs : List (Str × ZipTree) → List Str
  | [] => []
  | (_, t) :: rest => filesOf t ++ filesOfDirs rest
end

mutual
/-- `_check_empty_files` (imaging.py lines 467–484). -/
def checkEmptyFiles : ZipTree → List Err
  | .mk _ ds fs =>
      (fs.filterMap (fun p =>
        if p.2.fileSize = 0 then some (Err.mk p.2.filename .fileEmpty) else none))
        ++ checkEmptyFilesDirs ds

def checkEmptyFilesDirs : List (Str × ZipTree) → List Err
  | [] => []
  | (_, t) :: rest => checkEmptyFiles t ++ checkEmptyFilesDirs rest
end

/-- The suffix stripping of `_check_image_data` (imaging.py lines 540–541). -/
def stripSuffix (sfx sid : Str) : Str :=
  if pyNegSliceFrom sid sfx.length = sfx then pyDropSuffixSlice sid sfx.length else sid

/-- The DICOM-tag loop of `_check_image_data` (imaging.py lines 535–550):
check the first of `StudyComments`, `ImageComments`, `PatientID` present in
the metadata; `len(suffix)` raises `TypeError` when `suffix` is `None`. -/
def dicomTagCheck (suffix psc1 : Option Str) (f : Str) (md : PyDict Str Str) :
    Except PyErr (List (Option Str) × List Err) :=
  match (["StudyComments".toList, "ImageComments".toList, "PatientID".toList].find?
      (fun x => pyContains md x)) with
  | some x => do
      let sid ← pyGetE md x
      match suffix with
      | none => throw .typeError
      | some sfx =>
          let sid' := stripSuffix sfx sid
          let errs := if some sid' ≠ psc1 then [Err.mk f (.psc1Expected sid' psc1)] else []
          pure ([some sid'], errs)
  | none => pure ([], [Err.mk f (.missingPsc1 psc1)])

/-- The file loop of `_check_image_data` (imaging.py lines 527–554): stop
at the first file the metadata reader (`meta`, standing for
`read_metadata`) opens without `IOError`; if every file fails, the `else`
of the `for` reports the dataset as unreadable, locating the error at the
last file tried (the leaked loop variable `f`). The empty-list case would
be a Python `NameError` on `f` and is unreachable behind the
`len(files) < 1` guard. -/
def dicomLoop (meta : Str → Option (PyDict Str Str)) (suffix psc1 : Option Str) :
    List Str → Except PyErr (List (Option Str) × List Err)
  | [] => throw .nameError
  | f :: rest =>
      match meta f with
      | none =>
          match rest with
          | [] => pure ([], [Err.mk f (.unableToReadDicom psc1)])
          | _ :: _ => dicomLoop meta suffix psc1 rest
      | some md => dicomTagCheck suffix psc1 f md

/-- `_check_image_data` (imaging.py lines 487–556). -/
def check_image_data (ziptree : ZipTree) (suffix psc1 : Option Str)
    (meta : Str → Option (PyDict Str Str)) :
    Except PyErr (List (Option Str) × List Err) :=
  let files := filesOf ziptree
  if files.length < 1 then .ok ([], [Err.mk ziptree.filename .folderEmpty])
  else do
    let emptyErrs := checkEmptyFiles ziptree
    let ie ← dicomLoop meta suffix psc1 files
    pure (ie.1, emptyErrs ++ ie.2)

/-- One iteration of the uppermost-folder loop of `_check_ziptree`
(imaging.py lines 596–632): the folder-name check, the unexpected file and
subfolder reports (the file report is located at the relative key `f`, not
at `zipinfo.filename`), then the `AdditionalData` and `ImageData` branches.
When `psc1` is falsy the expected code is recovered from the folder name by
stripping the time-point suffix; `endswith(None)` raises `TypeError`. -/
def ziptreeDirStep (reg : PyDict Str Str) (oracle : Str → Str → BehRead)
    (meta : Str → Option (PyDict Str Str)) (suffix psc1 : Option Str)
    (date : Option PyDate) (expected : Option (PyDict Str Str))
    (st : List (Option Str) × List Err) (dz : Str × ZipTree) :
    Except PyErr (List (Option Str) × List Err) := do
  let subjectId := dz.1
  let z := dz.2
  let nameErrs := (checkPsc1 reg subjectId suffix psc1).map
    (fun m => Err.mk z.filename (Msg.incorrectUppermostName m))
  let fileErrs := z.files.map (fun p => Err.mk p.1 Msg.unexpectedFileUppermost)
  let subErrs := z.directories.filterMap (fun p =>
    if p.1 ≠ "AdditionalData".toList ∧ p.1 ≠ "ImageData".toList
    then some (Err.mk z.filename Msg.unexpectedSubfolderUppermost) else none)
  let st1 := (st.1, st.2 ++ nameErrs ++ fileErrs ++ subErrs)
  let st2 ←
    match lookupDir z "AdditionalData".toList with
    | some sub => do
        let expectedPsc1 ←
          if pyTruthy psc1 then pure (psc1.getD [])
          else
            match suffix with
            | none => throw PyErr.typeError
            | some sfx =>
                pure (if pyEndsWith subjectId sfx
                      then pyDropSuffixSlice subjectId sfx.length else subjectId)
        let se ← check_additional_data reg oracle sub suffix (some expectedPsc1) date expected
        pure (se.1.foldl pySetAdd st1.1, st1.2 ++ se.2)
    | none =>
        pure (st1.1,
          st1.2 ++ [Err.mk (z.filename ++ "AdditionalData/".toList) Msg.additionalDataMissing])
  match lookupDir z "ImageData".toList with
  | some sub => do
      let ie ← check_image_data sub suffix psc1 meta
      pure (ie.1.foldl pySetAdd st2.1, st2.2 ++ ie.2)
  | none =>
      pure (st2.1,
        st2.2 ++ [Err.mk (z.filename ++ "ImageData/".toList) Msg.imageDataMissing])

/-- `_check_ziptree` (imaging.py lines 558–634). -/
def check_ziptree (reg : PyDict Str Str) (oracle : Str → Str → BehRead)
    (meta : Str → Option (PyDict Str Str)) (path : Str) (ziptree : ZipTree)
    (suffix psc1 : Option Str) (date : Option PyDate)
    (expected : Option (PyDict Str Str)) :
    Except PyErr (List (Option Str) × List Err) := do
  let basename := pyBasename path
  let rootFileErrs := ziptree.files.map (fun p => Err.mk p.2.filename Msg.unexpectedRootFile)
  let lacksErrs :=
    if ziptree.directories.length < 1 then [Err.mk basename Msg.lacksUppermostFolder] else []
  ziptree.directories.foldlM (ziptreeDirStep reg oracle meta suffix psc1 date expected)
    ([], rootFileErrs ++ lacksErrs)

/-- What `check_zip_content` finds at `path` before walking the tree: an
empty file, a `BadZipFile`, or a readable tree (imaging.py lines 681–694). -/
inductive ZipSource where
  | empty
  | corrupt (m : Str)
  | ok (t : ZipTree)

/-- `check_zip_content` (imaging.py lines 637–694). -/
def check_zip_content (reg : PyDict Str Str) (oracle : Str → Str → BehRead)
    (meta : Str → Option (PyDict Str Str)) (path : Str) (src : ZipSource)
    (timepoint psc1 : Option Str) (date : Option PyDate)
    (expected : Option (PyDict Str Str)) :
    Except PyErr (List (Option Str) × List Err) :=
  let basename := pyBasename path
  match src with
  | .empty => .ok ([], [Err.mk basename Msg.zipEmpty])
  | .corrupt m => .ok ([], [Err.mk basename (Msg.cannotReadZip m)])
  | .ok ziptree => check_ziptree reg oracle meta path ziptree timepoint psc1 date expected

lemma dicomLoop_skip_unreadable (meta : Str → Option (PyDict Str Str))
    (suffix psc1 : Option Str) (pre : List Str) (f : Str) (post : List Str)
    (md : PyDict Str Str) (hpre : ∀ g ∈ pre, meta g = none) (hf : meta f = some md) :
    dicomLoop meta suffix psc1 (pre ++ f :: post) = dicomTagCheck suffix psc1 f md := by
  induction pre with
  | nil => simp [dicomLoop, hf]
  | cons g pre' ih =>
      have hg : meta g = none := hpre g (List.mem_cons_self g pre')
      have hstep : dicomLoop meta suffix psc1 ((g :: pre') ++ f :: post)
          = dicomLoop meta suffix psc1 (pre' ++ f :: post) := by
        cases hc : pre' ++ f :: post with
        | nil => simp at hc
        | cons a l => rw [List.cons_append, hc]; simp [dicomLoop, hg]
      rw [hstep]
      exact ih (fun x hx => hpre x (List.mem_cons_of_mem g hx))

lemma dicomLoop_all_unreadable (meta : Str → Option (PyDict Str Str))
    (suffix psc1 : Option Str) :
    ∀ (pre : List Str) (lf : Str), (∀ g ∈ pre ++ [lf], meta g = none) →
    dicomLoop meta suffix psc1 (pre ++ [lf])
      = .ok ([], [Err.mk lf (Msg.unableToReadDicom psc1)]) := by
  intro pre
  induction pre with
  | nil =>
      intro lf h
      simp only [List.nil_append]
      simp [dicomLoop, h lf (by simp)]
      rfl
  | cons g pre' ih =>
      intro lf h
      have hg : meta g = none := h g (by simp)
      have hstep : dicomLoop meta suffix psc1 ((g :: pre') ++ [lf])
          = dicomLoop meta suffix psc1 (pre' ++ [lf]) := by
        cases hc : pre' ++ [lf] with
        | nil => simp at hc
        | cons a l => rw [List.cons_append, hc]; simp [dicomLoop, hg]
      rw [hstep]
      refine ih lf (fun x hx => h x ?_)
      rw [List.cons_append]
      exact List.mem_cons_of_mem g hx

lemma check_image_data_first (t : ZipTree) (meta : Str → Option (PyDict Str Str))
    (suffix psc1 : Option Str) (pre : List Str) (f : Str) (post : List Str)
    (md : PyDict Str Str) (hsplit : filesOf t = pre ++ f :: post)
    (hpre : ∀ g ∈ pre, meta g = none) (hf : meta f = some md) :
    check_image_data t suffix psc1 meta =
      (dicomTagCheck suffix psc1 f md).map (fun ie => (ie.1, checkEmptyFiles t ++ ie.2)) := by
  simp only [check_image_data]
  rw [hsplit]
  rw [if_neg (by simp)]
  rw [dicomLoop_skip_unreadable meta suffix psc1 pre f post md hpre hf]
  cases dicomTagCheck suffix psc1 f md with
  | ok ie => rfl
  | error e => rfl

lemma check_image_data_unreadable (t : ZipTree) (meta : Str → Option (PyDict Str Str))
    (suffix psc1 : Option Str) (pre : List Str) (lf : Str)
    (hsplit : filesOf t = pre ++ [lf]) (hall : ∀ g ∈ filesOf t, meta g = none) :
    check_image_data t suffix psc1 meta =
      .ok ([], checkEmptyFiles t ++ [Err.mk lf (Msg.unableToReadDicom psc1)]) := by
  simp only [check_image_data]
  rw [hsplit]
  rw [if_neg (by simp)]
  rw [dicomLoop_all_unreadable meta suffix psc1 pre lf (hsplit ▸ hall)]
  rfl

/-- An `ImageData` branch with three DICOM files, used to exercise the checks. -/
def zipImageT : ZipTree :=
  .mk "x/ImageData/".toList []
    [("a.dcm".toList, ⟨"x/ImageData/a.dcm".toList, 5⟩),
     ("b.dcm".toList, ⟨"x/ImageData/b.dcm".toList, 5⟩),
     ("c.dcm".toList, ⟨"x/ImageData/c.dcm".toList, 5⟩)]

/-- A metadata reader that fails on the first two files of `zipImageT` and
reads a `PatientID` tag from the third. -/
def dicomMetaT : Str → Option (PyDict Str Str) := fun f =>
  if f = "x/ImageData/c.dcm".toList
  then some [("PatientID".toList, "000000000001FU2".toList)] else none

/-- **C9**: `_check_image_data` walks the files in order and stops at the first
file the metadata reader opens without error, checking that file's embedded
subject identifier (after suffix stripping) against the expected code; if every
file fails to open, it reports `unable to read DICOM files` at the last file
tried, a diagnostic distinct from the identifier-mismatch one. -/
theorem image_data_first_readable_wins
    (meta : Str → Option (PyDict Str Str)) (suffix psc1 : Option Str) (t : ZipTree) :
    (∀ (pre : List Str) (f : Str) (post : List Str) (md : PyDict Str Str),
        filesOf t = pre ++ f :: post → (∀ g ∈ pre, meta g = none) → meta f = some md →
        check_image_data t suffix psc1 meta =
          (dicomTagCheck suffix psc1 f md).map (fun ie => (ie.1, checkEmptyFiles t ++ ie.2)))
    ∧ (∀ (pre : List Str) (lf : Str), filesOf t = pre ++ [lf] →
        (∀ g ∈ filesOf t, meta g = none) →
        check_image_data t suffix psc1 meta =
          .ok ([], checkEmptyFiles t ++ [Err.mk lf (Msg.unableToReadDicom psc1)]))
    ∧ (∀ sid : Str, Msg.unableToReadDicom psc1 ≠ Msg.psc1Expected sid psc1) := by
  refine ⟨?_, ?_, ?_⟩
  · intro pre f post md hsplit hpre hf
    exact check_image_data_first t meta suffix psc1 pre f post md hsplit hpre hf
  · intro pre lf hsplit hall
    exact check_image_data_unreadable t meta suffix psc1 pre lf hsplit hall
  · intro sid h
    exact Msg.noConfusion h

/-- **C9** witness: on `zipImageT` with the reader `dicomMetaT` the third file
is checked (and its stripped identifier matches), while with a reader that
always fails the distinct unable-to-read diagnostic results. -/
theorem image_data_first_readable_wins_witness :
    check_image_data zipImageT (some "FU2".toList) (some "000000000001".toList) dicomMetaT
      = .ok ([some "000000000001".toList], [])
    ∧ check_image_data zipImageT (some "FU2".toList) (some "000000000001".toList) (fun _ => none)
      = .ok ([], [Err.mk "x/ImageData/c.dcm".toList
          (Msg.unableToReadDicom (some "000000000001".toList))]) := by
  constructor
  · exact ((image_data_first_readable_wins dicomMetaT (some "FU2".toList)
        (some "000000000001".toList) zipImageT).1
        ["x/ImageData/a.dcm".toList, "x/ImageData/b.dcm".toList] "x/ImageData/c.dcm".toList []
        [("PatientID".toList, "000000000001FU2".toList)]
        (by rfl) (by decide) (by rfl)).trans (by rfl)
  · exact ((image_data_first_readable_wins (fun _ => none) (some "FU2".toList)
        (some "000000000001".toList) zipImageT).2.1
        ["x/ImageData/a.dcm".toList, "x/ImageData/b.dcm".toList] "x/ImageData/c.dcm".toList
        (by rfl) (fun g _ => rfl)).trans (by rfl)

lemma except_pure_bind {ε α β : Type} (a : α) (f : α → Except ε β) :
    (pure a : Except ε α) >>= f = f a := rfl

lemma except_bind_ok_exists {ε α β : Type} (x : Except ε α) (f : α → Except ε β)
    (hfst : ∃ v, x = .ok v) (hsnd : ∀ v, ∃ w, f v = .ok w) :
    ∃ w, (x >>= f) = .ok w := by
  obtain ⟨v, hv⟩ := hfst
  obtain ⟨w, hw⟩ := hsnd v
  refine ⟨w, ?_⟩
  rw [hv, except_ok_bind, hw]

lemma foldlM_ok_exists {ε α β : Type} (f : α → β → Except ε α) (l : List β)
    (hf : ∀ a b, ∃ a', f a b = .ok a') :
    ∀ a, ∃ a', l.foldlM f a = .ok a' := by
  induction l with
  | nil => intro a; exact ⟨a, rfl⟩
  | cons b tl ih =>
      intro a
      obtain ⟨a1, h1⟩ := hf a b
      obtain ⟨a', h'⟩ := ih a1
      exact ⟨a', by rw [List.foldlM_cons, h1, except_ok_bind, h']⟩

lemma pyGetE_ok_of_contains {α β : Type} [DecidableEq α] (d : PyDict α β) (k : α)
    (h : pyContains d k = true) : ∃ v, pyGetE d k = .ok v := by
  unfold pyContains at h
  unfold pyGetE pyGet?
  cases hf : d.find? (fun p => p.1 = k) with
  | none => rw [hf] at h; simp at h
  | some p => exact ⟨p.2, rfl⟩

lemma dicomTagCheck_ok (sfx : Str) (psc1 : Option Str) (f : Str) (md : PyDict Str Str) :
    ∃ r, dicomTagCheck (some sfx) psc1 f md = .ok r := by
  unfold dicomTagCheck
  cases hford : ["StudyComments".toList, "ImageComments".toList, "PatientID".toList].find?
      (fun x => pyContains md x) with
  | none => exact ⟨_, rfl⟩
  | some x =>
      have hx : pyContains md x = true := by
        have := List.find?_some hford
        simpa using this
      obtain ⟨v, hv⟩ := pyGetE_ok_of_contains md x hx
      exact ⟨_, by simp only [hv, except_ok_bind]; rfl⟩

lemma dicomLoop_ok (meta : Str → Option (PyDict Str Str)) (sfx : Str) (psc1 : Option Str) :
    ∀ files : List Str, files ≠ [] →
    ∃ r, dicomLoop meta (some sfx) psc1 files = .ok r := by
  intro files
  induction files with
  | nil => intro h; exact absurd rfl h
  | cons f rest ih =>
      intro _
      cases hm : meta f with
      | none =>
          cases rest with
          | nil =>
              exact ⟨([], [Err.mk f (Msg.unableToReadDicom psc1)]), by simp [dicomLoop, hm]; rfl⟩
          | cons a l =>
              obtain ⟨r, hr⟩ := ih (by simp)
              refine ⟨r, ?_⟩
              rw [show dicomLoop meta (some sfx) psc1 (f :: a :: l)
                  = dicomLoop meta (some sfx) psc1 (a :: l) from by simp [dicomLoop, hm]]
              exact hr
      | some md =>
          obtain ⟨r, hr⟩ := dicomTagCheck_ok sfx psc1 f md
          refine ⟨r, ?_⟩
          rw [show dicomLoop meta (some sfx) psc1 (f :: rest)
              = dicomTagCheck (some sfx) psc1 f md from by simp [dicomLoop, hm]]
          exact hr

lemma check_image_data_ok (t : ZipTree) (sfx : Str) (psc1 : Option Str)
    (meta : Str → Option (PyDict Str Str)) :
    ∃ r, check_image_data t (some sfx) psc1 meta = .ok r := by
  simp only [check_image_data]
  by_cases h : (filesOf t).length < 1
  · exact ⟨_, by rw [if_pos h]⟩
  · have hne : filesOf t ≠ [] := by intro he; rw [he] at h; simp at h
    obtain ⟨r, hr⟩ := dicomLoop_ok meta sfx psc1 (filesOf t) hne
    exact ⟨_, by rw [if_neg h, hr, except_ok_bind]; rfl⟩

lemma pyLastE_ok {α : Type} (l : List α) (h : l ≠ []) :
    pyLastE l = .ok (l.getLast h) := by
  unfold pyLastE
  rw [List.getLast?_eq_getLast l h]

lemma behavioralContentCheck_ok (reg : PyDict Str Str) (r : BehRead)
    (suffix psc1 : Option Str) (bt zfn : Str) (st : ScanState) (hr : r.trials ≠ []) :
    ∃ st', behavioralContentCheck reg r suffix psc1 none bt zfn st = .ok st' := by
  simp only [behavioralContentCheck]
  have hl := pyLastE_ok r.trials hr
  split_ifs <;> exact ⟨_, by first | (rw [hl]; rfl) | rfl⟩

lemma scanningFileStep_ok (reg : PyDict Str Str) (oracle : Str → Str → BehRead)
    (suffix psc1 : Option Str) (expectedTests : Option (List Str)) (st : ScanState)
    (fz : Str × ZipEntry) (hOracle : ∀ bt f, (oracle bt f).trials ≠ []) :
    ∃ st', scanningFileStep reg oracle suffix psc1 none expectedTests st fz = .ok st' := by
  simp only [scanningFileStep]
  cases hbn : (check_behavioral_name fz.1).1 with
  | some bt =>
      apply except_bind_ok_exists
      · exact behavioralContentCheck_ok reg (oracle bt fz.2.filename) suffix psc1 bt
          fz.2.filename _ (hOracle bt fz.2.filename)
      · intro st3
        exact ⟨_, rfl⟩
  | none =>
      cases hpn : (check_physiological_name fz.1).1 with
      | some x => exact ⟨_, rfl⟩
      | none => exact ⟨_, rfl⟩

lemma check_scanning_ok (reg : PyDict Str Str) (oracle : Str → Str → BehRead)
    (ziptree : ZipTree) (suffix psc1 : Option Str)
    (hOracle : ∀ bt f, (oracle bt f).trials ≠ []) :
    ∃ r, check_scanning reg oracle ziptree suffix psc1 none none = .ok r := by
  simp only [check_scanning]
  have hset : scanningExpectedTests none = (.ok none : Except PyErr (Option (List Str))) := rfl
  rw [hset, except_ok_bind]
  apply except_bind_ok_exists
  · exact foldlM_ok_exists _ _
      (fun a b => scanningFileStep_ok reg oracle suffix psc1 none a b hOracle) _
  · intro st
    exact ⟨_, rfl⟩

lemma check_additional_data_ok (reg : PyDict Str Str) (oracle : Str → Str → BehRead)
    (ziptree : ZipTree) (suffix psc1 : Option Str)
    (hOracle : ∀ bt f, (oracle bt f).trials ≠ []) :
    ∃ r, check_additional_data reg oracle ziptree suffix psc1 none none = .ok r := by
  simp only [check_additional_data]
  cases hld : lookupDir ziptree ("Scanning".toList) with
  | some sub =>
      apply except_bind_ok_exists
      · exact check_scanning_ok reg oracle sub suffix psc1 hOracle
      · intro se
        exact ⟨_, rfl⟩
  | none => exact ⟨_, rfl⟩

lemma ziptreeDirStep_ok (reg : PyDict Str Str) (oracle : Str → Str → BehRead)
    (meta : Str → Option (PyDict Str Str)) (sfx : Str) (psc1 : Option Str)
    (st : List (Option Str) × List Err) (dz : Str × ZipTree)
    (hOracle : ∀ bt f, (oracle bt f).trials ≠ []) :
    ∃ st', ziptreeDirStep reg oracle meta (some sfx) psc1 none none st dz = .ok st' := by
  simp only [ziptreeDirStep]
  cases had : lookupDir dz.2 ("AdditionalData".toList) with
  | some sub =>
      split_ifs
      all_goals
        apply except_bind_ok_exists
        · exact ⟨_, rfl⟩
        · intro y
          apply except_bind_ok_exists
          · exact check_additional_data_ok reg oracle sub (some sfx) (some y) hOracle
          · intro se
            apply except_bind_ok_exists
            · exact ⟨_, rfl⟩
            · intro y2
              cases lookupDir dz.2 ("ImageData".toList) with
              | some sub2 =>
                  apply except_bind_ok_exists
                  · exact check_image_data_ok sub2 sfx psc1 meta
                  · intro ie
                    exact ⟨_, rfl⟩
              | none => exact ⟨_, rfl⟩
  | none =>
      apply except_bind_ok_exists
      · exact ⟨_, rfl⟩
      · intro y
        cases lookupDir dz.2 ("ImageData".toList) with
        | some sub2 =>
            apply except_bind_ok_exists
            · exact check_image_data_ok sub2 sfx psc1 meta
            · intro ie
              exact ⟨_, rfl⟩
        | none => exact ⟨_, rfl⟩

lemma check_ziptree_ok (reg : PyDict Str Str) (oracle : Str → Str → BehRead)
    (meta : Str → Option (PyDict Str Str)) (path : Str) (ziptree : ZipTree)
    (sfx : Str) (psc1 : Option Str)
    (hOracle : ∀ bt f, (oracle bt f).trials ≠ []) :
    ∃ r, check_ziptree reg oracle meta path ziptree (some sfx) psc1 none none = .ok r := by
  simp only [check_ziptree]
  exact foldlM_ok_exists _ _
    (fun a b => ziptreeDirStep_ok reg oracle meta sfx psc1 a b hOracle) _

/-- A behavioral-file reader standing in for `read_mid`/`read_ft`/`read_ss`/
`read_recog`, returning a fixed non-empty trials list. -/
def behOracleT : Str → Str → BehRead := fun _ _ => ⟨none, none, [(1 : Int)], []⟩

/-- A small registry with a single PSC1/PSC2 pair. -/
def regT : PyDict Str Str := [("000000000001".toList, "000000000002".toList)]

/-- A ZIP tree whose only uppermost folder has a wrong name and lacks both
`AdditionalData` and `ImageData`. -/
def badTopT : ZipTree :=
  .mk "".toList [("badname".toList, .mk "badname/".toList [] [])] []

/-- **C8**: the conformance validator accumulates diagnostics instead of
raising: on every readable tree it returns an identifier set and an error
list (given total behavioral readers, a time-point suffix, and no date or
expected-test parameters); on a tree whose single uppermost folder has a
wrong name and lacks both data folders, the name diagnostics and both
missing-folder diagnostics all appear, so traversal continues past each
failure; only an empty or unreadable container short-circuits, with one
container-level diagnostic and an empty identifier set. -/
theorem validator_accumulates_never_raises
    (reg : PyDict Str Str) (oracle : Str → Str → BehRead)
    (meta : Str → Option (PyDict Str Str)) (path : Str) (sfx : Str) (psc1 : Option Str)
    (hOracle : ∀ bt f, (oracle bt f).trials ≠ []) :
    (∀ t : ZipTree, ∃ ids errs,
        check_zip_content reg oracle meta path (.ok t) (some sfx) psc1 none none
          = .ok (ids, errs))
    ∧ (∀ (fn : Str) (fs : List (Str × ZipEntry)) (d zfn : Str)
        (zds : List (Str × ZipTree)) (zfs : List (Str × ZipEntry)),
        zds.find? (fun p => p.1 = "AdditionalData".toList) = none →
        zds.find? (fun p => p.1 = "ImageData".toList) = none →
        check_zip_content reg oracle meta path
            (.ok (.mk fn [(d, .mk zfn zds zfs)] fs)) (some sfx) psc1 none none
          = .ok ([],
              fs.map (fun p => Err.mk p.2.filename Msg.unexpectedRootFile)
              ++ (checkPsc1 reg d (some sfx) psc1).map
                  (fun m => Err.mk zfn (Msg.incorrectUppermostName m))
              ++ zfs.map (fun p => Err.mk p.1 Msg.unexpectedFileUppermost)
              ++ zds.filterMap (fun p =>
                  if p.1 ≠ "AdditionalData".toList ∧ p.1 ≠ "ImageData".toList
                  then some (Err.mk zfn Msg.unexpectedSubfolderUppermost) else none)
              ++ [Err.mk (zfn ++ "AdditionalData/".toList) Msg.additionalDataMissing]
              ++ [Err.mk (zfn ++ "ImageData/".toList) Msg.imageDataMissing]))
    ∧ check_zip_content reg oracle meta path .empty (some sfx) psc1 none none
        = .ok ([], [Err.mk (pyBasename path) Msg.zipEmpty])
    ∧ (∀ m, check_zip_content reg oracle meta path (.corrupt m) (some sfx) psc1 none none
        = .ok ([], [Err.mk (pyBasename path) (Msg.cannotReadZip m)])) := by
  refine ⟨?_, ?_, rfl, fun m => rfl⟩
  · intro t
    obtain ⟨r, hr⟩ := check_ziptree_ok reg oracle meta path t sfx psc1 hOracle
    exact ⟨r.1, r.2, hr⟩
  · intro fn fs d zfn zds zfs had hid
    have hadL : lookupDir (ZipTree.mk zfn zds zfs) ("AdditionalData".toList) = none := by
      simp only [lookupDir, ZipTree.directories, had, Option.map_none']
    have hidL : lookupDir (ZipTree.mk zfn zds zfs) ("ImageData".toList) = none := by
      simp only [lookupDir, ZipTree.directories, hid, Option.map_none']
    show check_ziptree reg oracle meta path (.mk fn [(d, .mk zfn zds zfs)] fs)
        (some sfx) psc1 none none = _
    simp only [check_ziptree, ZipTree.directories, ZipTree.files, List.length_cons,
      List.length_nil, List.foldlM_cons, List.foldlM_nil, ziptreeDirStep, hadL, hidL,
      except_pure_bind, ZipTree.filename]
    simp only [List.append_assoc, List.append_nil]
    rfl

/-- **C8** witness: on a concrete archive whose uppermost folder is named
`badname` the two name diagnostics and both missing-folder diagnostics are
all returned, and an empty container yields its single diagnostic. -/
theorem validator_accumulates_never_raises_witness :
    check_zip_content regT behOracleT (fun _ => none) "000000000001.zip".toList
        (.ok badTopT) (some "FU2".toList) (some "000000000001".toList) none none
      = .ok ([],
          [Err.mk "badname/".toList (Msg.incorrectUppermostName
              (PscMsg.shouldEndWithSuffix "badname".toList "FU2".toList)),
           Err.mk "badname/".toList (Msg.incorrectUppermostName
              (PscMsg.shouldContainTwelveDigits "badname".toList)),
           Err.mk "badname/AdditionalData/".toList Msg.additionalDataMissing,
           Err.mk "badname/ImageData/".toList Msg.imageDataMissing])
    ∧ check_zip_content regT behOracleT (fun _ => none) "000000000001.zip".toList
        .empty (some "FU2".toList) (some "000000000001".toList) none none
      = .ok ([], [Err.mk "000000000001.zip".toList Msg.zipEmpty]) := by
  have h := validator_accumulates_never_raises regT behOracleT (fun _ => none)
    "000000000001.zip".toList "FU2".toList (some "000000000001".toList)
    (fun bt f hcon => List.noConfusion hcon)
  refine ⟨?_, h.2.2.1⟩
  exact (h.2.1 "".toList [] "badname".toList "badname/".toList [] [] rfl rfl).trans (by rfl)
